import Mathlib

/-!
Verification of the Rijndael (AES) block-cipher core (src/c5/rijndael.cpp) and
the streaming base-N codec core (src/c5/basecode.cpp) of the Crypto++ mirror.

The C++ sources are shallowly embedded as executable Lean functions operating
on `Nat` (machine words modelled as natural numbers reduced modulo 2^8 / 2^32
where the C code truncates).  The embedding follows the portable little-endian
configuration of rijndael.cpp (IS_LITTLE_ENDIAN defined,
CRYPTOPP_ALLOW_UNALIGNED_DATA_ACCESS and the SSE2 assembly path disabled),
which is the C++ code actually compiled on a plain little-endian target.

Constants and helpers that the sources reference but that live in files not
provided (the S-boxes Se/Sd, the round constants rcon, GETBYTE, rotrFixed,
GetUserKey, ConditionalByteReverse, the NameValuePairs parameter bag, ctype.h
and the FILTER output macros) are modelled from the specification; each such
definition is marked with a doc comment starting with `Modelled from the spec`.
-/

set_option maxRecDepth 10000

/-! ### Generic machine-word helpers -/

/-- Modelled from the spec: the GETBYTE macro of misc.h extracts byte `i`
(least significant first) of a machine word. -/
def getByte (x i : Nat) : Nat := (x >>> (8 * i)) &&& 255

/-- rotrFixed of misc.h on 32-bit words: rotate right by `n` bits.
For `n = 0` and `x < 2^32` this is the identity, matching the C template. -/
def rotr32 (x n : Nat) : Nat := (x >>> n) ||| ((x <<< (32 - n)) % 2 ^ 32)

/-- Modelled from the spec: ByteReverse of misc.h on a 32-bit word, used by
ConditionalByteReverse on the little-endian target. -/
def bswap32 (x : Nat) : Nat :=
  (getByte x 0 <<< 24) ||| (getByte x 1 <<< 16) ||| (getByte x 2 <<< 8) ||| getByte x 3

/-! ### AES tables (rijndael.cpp)

The S-boxes `Se` and `Sd` are declared in the source but defined in a file not
provided; the spec fixes them as the AES-standard forward and inverse S-box. -/

/-- Modelled from the spec: the AES forward S-box `Se` (FIPS-197). -/
def Se : List Nat := [
  0x63, 0x7c, 0x77, 0x7b, 0xf2, 0x6b, 0x6f, 0xc5, 0x30, 0x01, 0x67, 0x2b, 0xfe, 0xd7, 0xab, 0x76,
  0xca, 0x82, 0xc9, 0x7d, 0xfa, 0x59, 0x47, 0xf0, 0xad, 0xd4, 0xa2, 0xaf, 0x9c, 0xa4, 0x72, 0xc0,
  0xb7, 0xfd, 0x93, 0x26, 0x36, 0x3f, 0xf7, 0xcc, 0x34, 0xa5, 0xe5, 0xf1, 0x71, 0xd8, 0x31, 0x15,
  0x04, 0xc7, 0x23, 0xc3, 0x18, 0x96, 0x05, 0x9a, 0x07, 0x12, 0x80, 0xe2, 0xeb, 0x27, 0xb2, 0x75,
  0x09, 0x83, 0x2c, 0x1a, 0x1b, 0x6e, 0x5a, 0xa0, 0x52, 0x3b, 0xd6, 0xb3, 0x29, 0xe3, 0x2f, 0x84,
  0x53, 0xd1, 0x00, 0xed, 0x20, 0xfc, 0xb1, 0x5b, 0x6a, 0xcb, 0xbe, 0x39, 0x4a, 0x4c, 0x58, 0xcf,
  0xd0, 0xef, 0xaa, 0xfb, 0x43, 0x4d, 0x33, 0x85, 0x45, 0xf9, 0x02, 0x7f, 0x50, 0x3c, 0x9f, 0xa8,
  0x51, 0xa3, 0x40, 0x8f, 0x92, 0x9d, 0x38, 0xf5, 0xbc, 0xb6, 0xda, 0x21, 0x10, 0xff, 0xf3, 0xd2,
  0xcd, 0x0c, 0x13, 0xec, 0x5f, 0x97, 0x44, 0x17, 0xc4, 0xa7, 0x7e, 0x3d, 0x64, 0x5d, 0x19, 0x73,
  0x60, 0x81, 0x4f, 0xdc, 0x22, 0x2a, 0x90, 0x88, 0x46, 0xee, 0xb8, 0x14, 0xde, 0x5e, 0x0b, 0xdb,
  0xe0, 0x32, 0x3a, 0x0a, 0x49, 0x06, 0x24, 0x5c, 0xc2, 0xd3, 0xac, 0x62, 0x91, 0x95, 0xe4, 0x79,
  0xe7, 0xc8, 0x37, 0x6d, 0x8d, 0xd5, 0x4e, 0xa9, 0x6c, 0x56, 0xf4, 0xea, 0x65, 0x7a, 0xae, 0x08,
  0xba, 0x78, 0x25, 0x2e, 0x1c, 0xa6, 0xb4, 0xc6, 0xe8, 0xdd, 0x74, 0x1f, 0x4b, 0xbd, 0x8b, 0x8a,
  0x70, 0x3e, 0xb5, 0x66, 0x48, 0x03, 0xf6, 0x0e, 0x61, 0x35, 0x57, 0xb9, 0x86, 0xc1, 0x1d, 0x9e,
  0xe1, 0xf8, 0x98, 0x11, 0x69, 0xd9, 0x8e, 0x94, 0x9b, 0x1e, 0x87, 0xe9, 0xce, 0x55, 0x28, 0xdf,
  0x8c, 0xa1, 0x89, 0x0d, 0xbf, 0xe6, 0x42, 0x68, 0x41, 0x99, 0x2d, 0x0f, 0xb0, 0x54, 0xbb, 0x16]

/-- Modelled from the spec: the AES inverse S-box `Sd` (FIPS-197). -/
def Sd : List Nat := [
  0x52, 0x09, 0x6a, 0xd5, 0x30, 0x36, 0xa5, 0x38, 0xbf, 0x40, 0xa3, 0x9e, 0x81, 0xf3, 0xd7, 0xfb,
  0x7c, 0xe3, 0x39, 0x82, 0x9b, 0x2f, 0xff, 0x87, 0x34, 0x8e, 0x43, 0x44, 0xc4, 0xde, 0xe9, 0xcb,
  0x54, 0x7b, 0x94, 0x32, 0xa6, 0xc2, 0x23, 0x3d, 0xee, 0x4c, 0x95, 0x0b, 0x42, 0xfa, 0xc3, 0x4e,
  0x08, 0x2e, 0xa1, 0x66, 0x28, 0xd9, 0x24, 0xb2, 0x76, 0x5b, 0xa2, 0x49, 0x6d, 0x8b, 0xd1, 0x25,
  0x72, 0xf8, 0xf6, 0x64, 0x86, 0x68, 0x98, 0x16, 0xd4, 0xa4, 0x5c, 0xcc, 0x5d, 0x65, 0xb6, 0x92,
  0x6c, 0x70, 0x48, 0x50, 0xfd, 0xed, 0xb9, 0xda, 0x5e, 0x15, 0x46, 0x57, 0xa7, 0x8d, 0x9d, 0x84,
  0x90, 0xd8, 0xab, 0x00, 0x8c, 0xbc, 0xd3, 0x0a, 0xf7, 0xe4, 0x58, 0x05, 0xb8, 0xb3, 0x45, 0x06,
  0xd0, 0x2c, 0x1e, 0x8f, 0xca, 0x3f, 0x0f, 0x02, 0xc1, 0xaf, 0xbd, 0x03, 0x01, 0x13, 0x8a, 0x6b,
  0x3a, 0x91, 0x11, 0x41, 0x4f, 0x67, 0xdc, 0xea, 0x97, 0xf2, 0xcf, 0xce, 0xf0, 0xb4, 0xe6, 0x73,
  0x96, 0xac, 0x74, 0x22, 0xe7, 0xad, 0x35, 0x85, 0xe2, 0xf9, 0x37, 0xe8, 0x1c, 0x75, 0xdf, 0x6e,
  0x47, 0xf1, 0x1a, 0x71, 0x1d, 0x29, 0xc5, 0x89, 0x6f, 0xb7, 0x62, 0x0e, 0xaa, 0x18, 0xbe, 0x1b,
  0xfc, 0x56, 0x3e, 0x4b, 0xc6, 0xd2, 0x79, 0x20, 0x9a, 0xdb, 0xc0, 0xfe, 0x78, 0xcd, 0x5a, 0xf4,
  0x1f, 0xdd, 0xa8, 0x33, 0x88, 0x07, 0xc7, 0x31, 0xb1, 0x12, 0x10, 0x59, 0x27, 0x80, 0xec, 0x5f,
  0x60, 0x51, 0x7f, 0xa9, 0x19, 0xb5, 0x4a, 0x0d, 0x2d, 0xe5, 0x7a, 0x9f, 0x93, 0xc9, 0x9c, 0xef,
  0xa0, 0xe0, 0x3b, 0x4d, 0xae, 0x2a, 0xf5, 0xb0, 0xc8, 0xeb, 0xbb, 0x3c, 0x83, 0x53, 0x99, 0x61,
  0x17, 0x2b, 0x04, 0x7e, 0xba, 0x77, 0xd6, 0x26, 0xe1, 0x69, 0x14, 0x63, 0x55, 0x21, 0x0c, 0x7d]

/-- The byte array `Se` packed into one natural number, byte `i` at bit
offset `8*i` (the little-endian memory image of the table).  Kept in this form
so that kernel evaluation of a lookup is a single shift-and-mask. -/
def SeN : Nat := 0x16bb54b00f2d99416842e6bf0d89a18cdf2855cee9871e9b948ed9691198f8e19e1dc186b95735610ef6034866b53e708a8bbd4b1f74dde8c6b4a61c2e2578ba08ae7a65eaf4566ca94ed58d6d37c8e779e4959162acd3c25c2406490a3a32e0db0b5ede14b8ee4688902a22dc4f816073195d643d7ea7c41744975fec130ccdd2f3ff1021dab6bcf5389d928f40a351a89f3c507f02f94585334d43fbaaefd0cf584c4a39becb6a5bb1fc20ed00d153842fe329b3d63b52a05a6e1b1a2c830975b227ebe28012079a059618c323c7041531d871f1e5a534ccf73f362693fdb7c072a49cafa2d4adf04759fa7dc982ca76abd7fe2b670130c56f6bf27b777c63

/-- The byte array `Sd` packed into one natural number (memory image). -/
def SdN : Nat := 0x7d0c2155631469e126d677ba7e042b17619953833cbbebc8b0f52aae4d3be0a0ef9cc9939f7ae52d0d4ab519a97f51605fec8027591012b131c7078833a8dd1ff45acd78fec0db9a2079d2c64b3e56fc1bbe18aa0e62b76f89c5291d711af1476edf751ce837f9e28535ade72274ac9673e6b4f0cecff297eadc674f4111913a6b8a130103bdafc1020f3fca8f1e2cd00645b3b80558e4f70ad3bc8c00abd890849d8da75746155edab9edfd5048706c92b6655dcc5ca4d41698688664f6f87225d18b6d49a25b76b224d92866a12e084ec3fa420b954cee3d23c2a632947b54cbe9dec444438e3487ff2f9b8239e37cfbd7f3819ea340bf38a53630d56a0952

/-- Lookup into the `Se` S-box (byte extraction from the memory image). -/
def SeAt (i : Nat) : Nat := (SeN >>> (8 * i)) &&& 255

/-- Lookup into the `Sd` S-box (byte extraction from the memory image). -/
def SdAt (i : Nat) : Nat := (SdN >>> (8 * i)) &&& 255

/-- Modelled from the spec: the AES round constants, powers of x in GF(2^8)
left-justified in a 32-bit word. -/
def rcon : List Nat := [0x01000000, 0x02000000, 0x04000000, 0x08000000,
  0x10000000, 0x20000000, 0x40000000, 0x80000000, 0x1B000000, 0x36000000,
  0x6C000000, 0xD8000000, 0xAB000000, 0x4D000000]

/-- The word array `rcon` packed into one natural number, 32-bit word `i` at
bit offset `32*i`. -/
def rconN : Nat := 0x4d000000ab000000d80000006c000000360000001b0000008000000040000000200000001000000008000000040000000200000001000000

/-- Lookup into the round-constant table. -/
def rconAt (i : Nat) : Nat := (rconN >>> (32 * i)) &&& 0xFFFFFFFF

/-! ### GF(2^8) multiplication macros of rijndael.cpp (lines 84-92) -/

/-- The f2 macro: multiplication by x in GF(2^8) modulo 0x11B. -/
def f2 (x : Nat) : Nat := (x <<< 1) ^^^ (((x >>> 7) &&& 1) * 0x11b)

/-- The f4 macro: multiplication by x^2. -/
def f4 (x : Nat) : Nat :=
  (x <<< 2) ^^^ (((x >>> 6) &&& 1) * 0x11b) ^^^ (((x >>> 6) &&& 2) * 0x11b)

/-- The f8 macro: multiplication by x^3. -/
def f8 (x : Nat) : Nat :=
  (x <<< 3) ^^^ (((x >>> 5) &&& 1) * 0x11b) ^^^ (((x >>> 5) &&& 2) * 0x11b) ^^^
    (((x >>> 5) &&& 4) * 0x11b)

/-- The f3 macro. -/
def f3 (x : Nat) : Nat := f2 x ^^^ x

/-- The f9 macro. -/
def f9 (x : Nat) : Nat := f8 x ^^^ x

/-- The fb macro. -/
def fb (x : Nat) : Nat := f8 x ^^^ f2 x ^^^ x

/-- The fd macro. -/
def fd (x : Nat) : Nat := f8 x ^^^ f4 x ^^^ x

/-- The fe macro. -/
def fe (x : Nat) : Nat := f8 x ^^^ f4 x ^^^ f2 x

/-! ### Te and Td tables (FillEncTable / FillDecTable, lines 94-135)

The portable branch fills `Te[i + j*256]` with the word
`y_i = f3(Se[i]) | Se[i]<<8 | Se[i]<<16 | f2(Se[i])<<24` rotated right by `8*j`
bits (the loop applies `rotrFixed(y, 8)` cumulatively, which for `j` steps is a
rotation by `8*j`).  `Td` is analogous over `Sd`. -/

/-- The unrotated encryption-table word `y` of FillEncTable (line 103). -/
def TeWord (i : Nat) : Nat :=
  let x := SeAt i
  f3 x ||| (x <<< 8) ||| (x <<< 16) ||| (f2 x <<< 24)

/-- The decryption-table word as a function of the already-inverted byte;
`TdWord i = tdy (Sd i)` matches line 126 of FillDecTable. -/
def tdy (x : Nat) : Nat :=
  fb x ||| (fd x <<< 8) ||| (f9 x <<< 16) ||| (fe x <<< 24)

/-- The unrotated decryption-table word `y` of FillDecTable (line 126). -/
def TdWord (i : Nat) : Nat := tdy (SdAt i)

/-- The filled 4x256 encryption table: `Te[i + j*256] = rotr(y_i, 8*j)`. -/
def TeAt (i : Nat) : Nat := rotr32 (TeWord (i % 256)) (8 * (i / 256))

/-- The filled 4x256 decryption table: `Td[i + j*256] = rotr(y_i, 8*j)`. -/
def TdAt (i : Nat) : Nat := rotr32 (TdWord (i % 256)) (8 * (i / 256))

/-! ### Key schedule (Rijndael::Base::UncheckedSetKey, lines 137-233) -/

/-- Modelled from the spec: GetUserKey(BIG_ENDIAN_ORDER, rk, keylen/4, userKey,
keylen) reads the user key bytes as big-endian 32-bit words (spec 4.2 step 1);
`beWord k i` is word `i`. -/
def beWord (k : List Nat) (i : Nat) : Nat :=
  (k.getD (4 * i) 0 <<< 24) ||| (k.getD (4 * i + 1) 0 <<< 16) |||
    (k.getD (4 * i + 2) 0 <<< 8) ||| k.getD (4 * i + 3) 0

/-- Writes the `n` big-endian user-key words into the front of `rk`. -/
def loadUserKey (key : List Nat) : Nat → List Nat → List Nat
  | 0, rk => rk
  | n + 1, rk => (loadUserKey key n rk).set n (beWord key n)

/-- One iteration of the key-expansion while-loop body (lines 151-160):
computes the four new round-key words at `off + Nk .. off + Nk + 3`. -/
def keyExpandIter (keylen rcIdx off : Nat) (rk : List Nat) : List Nat :=
  let Nk := keylen / 4
  let temp := rk.getD (off + Nk - 1) 0
  let rk := rk.set (off + Nk)
    (rk.getD off 0 ^^^ (SeAt (getByte temp 2) <<< 24) ^^^
      (SeAt (getByte temp 1) <<< 16) ^^^ (SeAt (getByte temp 0) <<< 8) ^^^
      SeAt (getByte temp 3) ^^^ rconAt rcIdx)
  let rk := rk.set (off + Nk + 1) (rk.getD (off + 1) 0 ^^^ rk.getD (off + Nk) 0)
  let rk := rk.set (off + Nk + 2) (rk.getD (off + 2) 0 ^^^ rk.getD (off + Nk + 1) 0)
  rk.set (off + Nk + 3) (rk.getD (off + 3) 0 ^^^ rk.getD (off + Nk + 2) 0)

/-- The key-expansion while-loop (lines 149-183).  `fuel` bounds the number of
iterations; the callers pass fuel 10, enough for every valid key length (the
loop breaks via the `rk + keylen/4 + 4 == m_key.end()` test). -/
def keyExpandLoop (keylen : Nat) : Nat → Nat → Nat → List Nat → List Nat
  | 0, _, _, rk => rk
  | fuel + 1, rcIdx, off, rk =>
    let Nk := keylen / 4
    let rk := keyExpandIter keylen rcIdx off rk
    if off + Nk + 4 = rk.length then rk
    else
      let rk :=
        if keylen = 24 then
          let rk := rk.set (off + 10) (rk.getD (off + 4) 0 ^^^ rk.getD (off + 9) 0)
          rk.set (off + 11) (rk.getD (off + 5) 0 ^^^ rk.getD (off + 10) 0)
        else if keylen = 32 then
          let temp := rk.getD (off + 11) 0
          let rk := rk.set (off + 12)
            (rk.getD (off + 4) 0 ^^^ (SeAt (getByte temp 3) <<< 24) ^^^
              (SeAt (getByte temp 2) <<< 16) ^^^ (SeAt (getByte temp 1) <<< 8) ^^^
              SeAt (getByte temp 0))
          let rk := rk.set (off + 13) (rk.getD (off + 5) 0 ^^^ rk.getD (off + 12) 0)
          let rk := rk.set (off + 14) (rk.getD (off + 6) 0 ^^^ rk.getD (off + 13) 0)
          rk.set (off + 15) (rk.getD (off + 7) 0 ^^^ rk.getD (off + 14) 0)
        else rk
      keyExpandLoop keylen fuel (rcIdx + 1) (off + Nk) rk

/-- The fully expanded key schedule (big-endian word values), before the
direction-dependent post-processing: lines 141-183 of UncheckedSetKey. -/
def expandedKey (key : List Nat) : List Nat :=
  let rounds := key.length / 4 + 6
  let rk := List.replicate (4 * (rounds + 1)) 0
  let rk := loadUserKey key (key.length / 4) rk
  keyExpandLoop key.length 10 0 0 rk

/-- ConditionalByteReverse(BIG_ENDIAN_ORDER, ...) over the first and last 16
bytes of the key array (lines 231-232): on the little-endian target this
byte-swaps words 0..3 and 4*rounds..4*rounds+3. -/
def byteReverse16 (rounds : Nat) (rk : List Nat) : List Nat :=
  let rk := rk.set 0 (bswap32 (rk.getD 0 0))
  let rk := rk.set 1 (bswap32 (rk.getD 1 0))
  let rk := rk.set 2 (bswap32 (rk.getD 2 0))
  let rk := rk.set 3 (bswap32 (rk.getD 3 0))
  let rk := rk.set (4 * rounds) (bswap32 (rk.getD (4 * rounds) 0))
  let rk := rk.set (4 * rounds + 1) (bswap32 (rk.getD (4 * rounds + 1) 0))
  let rk := rk.set (4 * rounds + 2) (bswap32 (rk.getD (4 * rounds + 2) 0))
  rk.set (4 * rounds + 3) (bswap32 (rk.getD (4 * rounds + 3) 0))

/-- The inverse-MixColumn transform applied to one round-key word
(lines 208-212). -/
def invMixColumnWord (w : Nat) : Nat :=
  TdAt (0 * 256 + SeAt (getByte w 3)) ^^^ TdAt (1 * 256 + SeAt (getByte w 2)) ^^^
    TdAt (2 * 256 + SeAt (getByte w 1)) ^^^ TdAt (3 * 256 + SeAt (getByte w 0))

/-- The round-key order inversion (lines 199-204): the swap loop exchanges the
4-word chunk `c` with chunk `rounds - c`; written functionally. -/
def reverseRoundKeys (rounds : Nat) (rk : List Nat) : List Nat :=
  (List.range rk.length).map fun x =>
    if x ≤ 4 * rounds + 3 then rk.getD (4 * (rounds - x / 4) + x % 4) 0
    else rk.getD x 0

/-- The inverse-MixColumn pass over the interior round keys (lines 206-228):
chunks 1 .. rounds-1, i.e. word indices 4 .. 4*rounds-1; written functionally. -/
def invMixInterior (rounds : Nat) (rk : List Nat) : List Nat :=
  (List.range rk.length).map fun x =>
    if 4 ≤ x ∧ x < 4 * rounds then invMixColumnWord (rk.getD x 0)
    else rk.getD x 0

/-- UncheckedSetKey in the forward (encryption) direction: expansion followed
by the end-of-function byte reversal of the first and last round key. -/
def Rijndael.UncheckedSetKeyEnc (key : List Nat) : List Nat :=
  byteReverse16 (key.length / 4 + 6) (expandedKey key)

/-- UncheckedSetKey in the reverse (decryption) direction: expansion, round-key
order inversion, inverse MixColumn on interior keys, then the byte reversal. -/
def Rijndael.UncheckedSetKeyDec (key : List Nat) : List Nat :=
  let rounds := key.length / 4 + 6
  byteReverse16 rounds (invMixInterior rounds (reverseRoundKeys rounds (expandedKey key)))

/-! ### Single-block encryption (Rijndael::Enc::ProcessAndXorBlock, 753-879) -/

/-- Little-endian 32-bit load `((const word32 *)block)[i]` on the
little-endian target. -/
def leWord (blk : List Nat) (i : Nat) : Nat :=
  blk.getD (4 * i) 0 ||| (blk.getD (4 * i + 1) 0 <<< 8) |||
    (blk.getD (4 * i + 2) 0 <<< 16) ||| (blk.getD (4 * i + 3) 0 <<< 24)

/-- The first encryption round (lines 811-814): the four QUARTER_ROUND1 macro
expansions with TL(i,x) = rotrFixed(Te[x], (3-i)*8), written as one state
update.  The sequential `^=` updates are expressed by let-rebinding. -/
def encFirstRound (t0 t1 t2 t3 s0 s1 s2 s3 : Nat) : Nat × Nat × Nat × Nat :=
  let t3 := t3 ^^^ rotr32 (TeAt (getByte s3 0)) 0
  let t2 := t2 ^^^ rotr32 (TeAt (getByte s3 1)) 8
  let t1 := t1 ^^^ rotr32 (TeAt (getByte s3 2)) 16
  let t0 := t0 ^^^ rotr32 (TeAt (s3 >>> 24)) 24
  let t2 := t2 ^^^ rotr32 (TeAt (getByte s2 0)) 0
  let t1 := t1 ^^^ rotr32 (TeAt (getByte s2 1)) 8
  let t0 := t0 ^^^ rotr32 (TeAt (getByte s2 2)) 16
  let t3 := t3 ^^^ rotr32 (TeAt (s2 >>> 24)) 24
  let t1 := t1 ^^^ rotr32 (TeAt (getByte s1 0)) 0
  let t0 := t0 ^^^ rotr32 (TeAt (getByte s1 1)) 8
  let t3 := t3 ^^^ rotr32 (TeAt (getByte s1 2)) 16
  let t2 := t2 ^^^ rotr32 (TeAt (s1 >>> 24)) 24
  let t0 := t0 ^^^ rotr32 (TeAt (getByte s0 0)) 0
  let t3 := t3 ^^^ rotr32 (TeAt (getByte s0 1)) 8
  let t2 := t2 ^^^ rotr32 (TeAt (getByte s0 2)) 16
  let t1 := t1 ^^^ rotr32 (TeAt (s0 >>> 24)) 24
  (t0, t1, t2, t3)

/-- One main-loop half round (lines 830-835 or 837-842): reads the round key
`(k0,k1,k2,k3)` and the state `(t0,t1,t2,t3)`, with TL(i,x) = Te[i*256+x]. -/
def encRound (k0 k1 k2 k3 t0 t1 t2 t3 : Nat) : Nat × Nat × Nat × Nat :=
  let s0 := k0
  let s1 := k1
  let s2 := k2
  let s3 := k3
  let s0 := s0 ^^^ TeAt (3 * 256 + getByte t3 0)
  let s1 := s1 ^^^ TeAt (2 * 256 + getByte t3 1)
  let s2 := s2 ^^^ TeAt (1 * 256 + getByte t3 2)
  let s3 := s3 ^^^ TeAt (t3 >>> 24)
  let s3 := s3 ^^^ TeAt (3 * 256 + getByte t2 0)
  let s0 := s0 ^^^ TeAt (2 * 256 + getByte t2 1)
  let s1 := s1 ^^^ TeAt (1 * 256 + getByte t2 2)
  let s2 := s2 ^^^ TeAt (t2 >>> 24)
  let s2 := s2 ^^^ TeAt (3 * 256 + getByte t1 0)
  let s3 := s3 ^^^ TeAt (2 * 256 + getByte t1 1)
  let s0 := s0 ^^^ TeAt (1 * 256 + getByte t1 2)
  let s1 := s1 ^^^ TeAt (t1 >>> 24)
  let s1 := s1 ^^^ TeAt (3 * 256 + getByte t0 0)
  let s2 := s2 ^^^ TeAt (2 * 256 + getByte t0 1)
  let s3 := s3 ^^^ TeAt (1 * 256 + getByte t0 2)
  let s0 := s0 ^^^ TeAt (t0 >>> 24)
  (s0, s1, s2, s3)

/-- The Nr-2 full-round do-while loop of encryption (lines 827-846): `r`
iterations, each applying two half rounds and advancing the key cursor by 8. -/
def encLoop (rk : List Nat) : Nat → Nat → Nat × Nat × Nat × Nat → Nat × Nat × Nat × Nat
  | 0, _, t => t
  | r + 1, off, (t0, t1, t2, t3) =>
    let (s0, s1, s2, s3) :=
      encRound (rk.getD off 0) (rk.getD (off + 1) 0) (rk.getD (off + 2) 0)
        (rk.getD (off + 3) 0) t0 t1 t2 t3
    let t :=
      encRound (rk.getD (off + 4) 0) (rk.getD (off + 5) 0) (rk.getD (off + 6) 0)
        (rk.getD (off + 7) 0) s0 s1 s2 s3
    encLoop rk r (off + 8) t

/-- Byte 1 of the little-endian-stored word Te[x]: the expression
`((byte *)(Te+byte(t)))[1]` of the final encryption round, which recovers the
S-box value. -/
def TeByte1 (x : Nat) : Nat := getByte (TeAt x) 1

/-- The final encryption round and output store (lines 848-878), without the
xor input (xorBlock null, the else branch at line 872). -/
def encLast (rk : List Nat) (off : Nat) (t0 t1 t2 t3 : Nat) : List Nat :=
  let tb15 := TeByte1 (getByte t2 0)
  let tb2 := TeByte1 (getByte t2 1)
  let tb5 := TeByte1 (getByte t2 2)
  let tb8 := TeByte1 (t2 >>> 24)
  let tb11 := TeByte1 (getByte t1 0)
  let tb14 := TeByte1 (getByte t1 1)
  let tb1 := TeByte1 (getByte t1 2)
  let tb4 := TeByte1 (t1 >>> 24)
  let tb7 := TeByte1 (getByte t0 0)
  let tb10 := TeByte1 (getByte t0 1)
  let tb13 := TeByte1 (getByte t0 2)
  let tb0 := TeByte1 (t0 >>> 24)
  let tb3 := TeByte1 (getByte t3 0)
  let tb6 := TeByte1 (getByte t3 1)
  let tb9 := TeByte1 (getByte t3 2)
  let tb12 := TeByte1 (t3 >>> 24)
  let tbw0 := tb0 ||| (tb1 <<< 8) ||| (tb2 <<< 16) ||| (tb3 <<< 24)
  let tbw1 := tb4 ||| (tb5 <<< 8) ||| (tb6 <<< 16) ||| (tb7 <<< 24)
  let tbw2 := tb8 ||| (tb9 <<< 8) ||| (tb10 <<< 16) ||| (tb11 <<< 24)
  let tbw3 := tb12 ||| (tb13 <<< 8) ||| (tb14 <<< 16) ||| (tb15 <<< 24)
  let obw0 := tbw0 ^^^ rk.getD off 0
  let obw1 := tbw1 ^^^ rk.getD (off + 1) 0
  let obw2 := tbw2 ^^^ rk.getD (off + 2) 0
  let obw3 := tbw3 ^^^ rk.getD (off + 3) 0
  [getByte obw0 0, getByte obw0 1, getByte obw0 2, getByte obw0 3,
   getByte obw1 0, getByte obw1 1, getByte obw1 2, getByte obw1 3,
   getByte obw2 0, getByte obw2 1, getByte obw2 2, getByte obw2 3,
   getByte obw3 0, getByte obw3 1, getByte obw3 2, getByte obw3 3]

/-- Rijndael::Enc::ProcessAndXorBlock (portable little-endian path, xorBlock
null).  The cache-preload countermeasure computes `u = 0` (an AND-fold starting
from 0) and ORs it into the state, a no-op transcribed as `u := 0`. -/
def Rijndael.EncProcessBlock (mkey : List Nat) (rounds : Nat) (inBlock : List Nat) :
    List Nat :=
  let s0 := leWord inBlock 0 ^^^ mkey.getD 0 0
  let s1 := leWord inBlock 1 ^^^ mkey.getD 1 0
  let s2 := leWord inBlock 2 ^^^ mkey.getD 2 0
  let s3 := leWord inBlock 3 ^^^ mkey.getD 3 0
  let t0 := mkey.getD 4 0
  let t1 := mkey.getD 5 0
  let t2 := mkey.getD 6 0
  let t3 := mkey.getD 7 0
  let u := 0
  let s0 := s0 ||| u
  let s1 := s1 ||| u
  let s2 := s2 ||| u
  let s3 := s3 ||| u
  let (t0, t1, t2, t3) := encFirstRound t0 t1 t2 t3 s0 s1 s2 s3
  let (t0, t1, t2, t3) := encLoop mkey (rounds / 2 - 1) 8 (t0, t1, t2, t3)
  encLast mkey (4 * rounds) t0 t1 t2 t3

/-! ### Single-block decryption (Rijndael::Dec::ProcessAndXorBlock, 881-992) -/

/-- The first decryption round (lines 920-923) with the little-endian
QUARTER_ROUND macro (lines 913-917). -/
def decFirstRound (t0 t1 t2 t3 s0 s1 s2 s3 : Nat) : Nat × Nat × Nat × Nat :=
  let t3 := t3 ^^^ TdAt (getByte s3 0)
  let t0 := t0 ^^^ rotr32 (TdAt (getByte s3 1)) 8
  let t1 := t1 ^^^ rotr32 (TdAt (getByte s3 2)) 16
  let t2 := t2 ^^^ rotr32 (TdAt (s3 >>> 24)) 24
  let t2 := t2 ^^^ TdAt (getByte s2 0)
  let t3 := t3 ^^^ rotr32 (TdAt (getByte s2 1)) 8
  let t0 := t0 ^^^ rotr32 (TdAt (getByte s2 2)) 16
  let t1 := t1 ^^^ rotr32 (TdAt (s2 >>> 24)) 24
  let t1 := t1 ^^^ TdAt (getByte s1 0)
  let t2 := t2 ^^^ rotr32 (TdAt (getByte s1 1)) 8
  let t3 := t3 ^^^ rotr32 (TdAt (getByte s1 2)) 16
  let t0 := t0 ^^^ rotr32 (TdAt (s1 >>> 24)) 24
  let t0 := t0 ^^^ TdAt (getByte s0 0)
  let t1 := t1 ^^^ rotr32 (TdAt (getByte s0 1)) 8
  let t2 := t2 ^^^ rotr32 (TdAt (getByte s0 2)) 16
  let t3 := t3 ^^^ rotr32 (TdAt (s0 >>> 24)) 24
  (t0, t1, t2, t3)

/-- One main-loop half round of decryption (lines 930-948). -/
def decRound (k0 k1 k2 k3 t0 t1 t2 t3 : Nat) : Nat × Nat × Nat × Nat :=
  let s0 := k0
  let s1 := k1
  let s2 := k2
  let s3 := k3
  let s2 := s2 ^^^ TdAt (3 * 256 + getByte t3 0)
  let s1 := s1 ^^^ TdAt (2 * 256 + getByte t3 1)
  let s0 := s0 ^^^ TdAt (1 * 256 + getByte t3 2)
  let s3 := s3 ^^^ TdAt (t3 >>> 24)
  let s1 := s1 ^^^ TdAt (3 * 256 + getByte t2 0)
  let s0 := s0 ^^^ TdAt (2 * 256 + getByte t2 1)
  let s3 := s3 ^^^ TdAt (1 * 256 + getByte t2 2)
  let s2 := s2 ^^^ TdAt (t2 >>> 24)
  let s0 := s0 ^^^ TdAt (3 * 256 + getByte t1 0)
  let s3 := s3 ^^^ TdAt (2 * 256 + getByte t1 1)
  let s2 := s2 ^^^ TdAt (1 * 256 + getByte t1 2)
  let s1 := s1 ^^^ TdAt (t1 >>> 24)
  let s3 := s3 ^^^ TdAt (3 * 256 + getByte t0 0)
  let s2 := s2 ^^^ TdAt (2 * 256 + getByte t0 1)
  let s1 := s1 ^^^ TdAt (1 * 256 + getByte t0 2)
  let s0 := s0 ^^^ TdAt (t0 >>> 24)
  (s0, s1, s2, s3)

/-- The Nr-2 full-round do-while loop of decryption (lines 927-952). -/
def decLoop (rk : List Nat) : Nat → Nat → Nat × Nat × Nat × Nat → Nat × Nat × Nat × Nat
  | 0, _, t => t
  | r + 1, off, (t0, t1, t2, t3) =>
    let (s0, s1, s2, s3) :=
      decRound (rk.getD off 0) (rk.getD (off + 1) 0) (rk.getD (off + 2) 0)
        (rk.getD (off + 3) 0) t0 t1 t2 t3
    let t :=
      decRound (rk.getD (off + 4) 0) (rk.getD (off + 5) 0) (rk.getD (off + 6) 0)
        (rk.getD (off + 7) 0) s0 s1 s2 s3
    decLoop rk r (off + 8) t

/-- The final decryption round and output store (lines 961-991), xorBlock
null.  (The second preload fold again yields `u = 0`, a no-op.) -/
def decLast (rk : List Nat) (off : Nat) (t0 t1 t2 t3 : Nat) : List Nat :=
  let tb7 := SdAt (getByte t2 0)
  let tb2 := SdAt (getByte t2 1)
  let tb13 := SdAt (getByte t2 2)
  let tb8 := SdAt (t2 >>> 24)
  let tb3 := SdAt (getByte t1 0)
  let tb14 := SdAt (getByte t1 1)
  let tb9 := SdAt (getByte t1 2)
  let tb4 := SdAt (t1 >>> 24)
  let tb15 := SdAt (getByte t0 0)
  let tb10 := SdAt (getByte t0 1)
  let tb5 := SdAt (getByte t0 2)
  let tb0 := SdAt (t0 >>> 24)
  let tb11 := SdAt (getByte t3 0)
  let tb6 := SdAt (getByte t3 1)
  let tb1 := SdAt (getByte t3 2)
  let tb12 := SdAt (t3 >>> 24)
  let tbw0 := tb0 ||| (tb1 <<< 8) ||| (tb2 <<< 16) ||| (tb3 <<< 24)
  let tbw1 := tb4 ||| (tb5 <<< 8) ||| (tb6 <<< 16) ||| (tb7 <<< 24)
  let tbw2 := tb8 ||| (tb9 <<< 8) ||| (tb10 <<< 16) ||| (tb11 <<< 24)
  let tbw3 := tb12 ||| (tb13 <<< 8) ||| (tb14 <<< 16) ||| (tb15 <<< 24)
  let obw0 := tbw0 ^^^ rk.getD off 0
  let obw1 := tbw1 ^^^ rk.getD (off + 1) 0
  let obw2 := tbw2 ^^^ rk.getD (off + 2) 0
  let obw3 := tbw3 ^^^ rk.getD (off + 3) 0
  [getByte obw0 0, getByte obw0 1, getByte obw0 2, getByte obw0 3,
   getByte obw1 0, getByte obw1 1, getByte obw1 2, getByte obw1 3,
   getByte obw2 0, getByte obw2 1, getByte obw2 2, getByte obw2 3,
   getByte obw3 0, getByte obw3 1, getByte obw3 2, getByte obw3 3]

/-- Rijndael::Dec::ProcessAndXorBlock (little-endian path, xorBlock null). -/
def Rijndael.DecProcessBlock (mkey : List Nat) (rounds : Nat) (inBlock : List Nat) :
    List Nat :=
  let s0 := leWord inBlock 0 ^^^ mkey.getD 0 0
  let s1 := leWord inBlock 1 ^^^ mkey.getD 1 0
  let s2 := leWord inBlock 2 ^^^ mkey.getD 2 0
  let s3 := leWord inBlock 3 ^^^ mkey.getD 3 0
  let t0 := mkey.getD 4 0
  let t1 := mkey.getD 5 0
  let t2 := mkey.getD 6 0
  let t3 := mkey.getD 7 0
  let u := 0
  let s0 := s0 ||| u
  let s1 := s1 ||| u
  let s2 := s2 ||| u
  let s3 := s3 ||| u
  let (t0, t1, t2, t3) := decFirstRound t0 t1 t2 t3 s0 s1 s2 s3
  let (t0, t1, t2, t3) := decLoop mkey (rounds / 2 - 1) 8 (t0, t1, t2, t3)
  decLast mkey (4 * rounds) t0 t1 t2 t3

/-- AES-128 encryption of one block through set_key + process_and_xor_block. -/
def aesEncrypt (key block : List Nat) : List Nat :=
  Rijndael.EncProcessBlock (Rijndael.UncheckedSetKeyEnc key) (key.length / 4 + 6) block

/-- AES decryption of one block through set_key (decrypt direction) +
process_and_xor_block. -/
def aesDecrypt (key block : List Nat) : List Nat :=
  Rijndael.DecProcessBlock (Rijndael.UncheckedSetKeyDec key) (key.length / 4 + 6) block

/-! ## Base-N codec (basecode.cpp)

The FILTER_BEGIN / FILTER_OUTPUT / FILTER_END macros of the filter framework
are not part of the provided sources.  Modelled from the spec (section 9): a
`put2` call is a streaming operation that forwards emitted bytes downstream;
with a sink that always accepts, a call consumes its whole input, so each
`Put2` is embedded as a function from the component state and the input byte
list to the successor state and the concatenated emitted bytes. -/

/-- The state of a BaseN_Encoder: the m_* members of the C++ object.
`padding` is the int member `m_padding` (-1 when padding is disabled). -/
structure EncState where
  bitsPerChar : Nat
  alphabet : List Nat
  padding : Int
  outputBlockSize : Nat
  bytePos : Nat
  bitPos : Nat
  outBuf : List Nat
  deriving Repr, DecidableEq

/-- The inner while-true loop of BaseN_Encoder::Put2 (lines 46-66), packing
the 8 bits of one input byte into successive output symbols.  `fuel` bounds
the iteration count; callers pass 9, enough because every non-final iteration
consumes at least one of the 8 source bits whenever `bitPos < bitsPerChar`
(the loop invariant asserted at line 48). -/
def encPackBits (bpc : Nat) : Nat → Nat → Nat → Nat → Nat → List Nat → Nat × Nat × List Nat
  | 0, _, _, bytePos, bitPos, buf => (bytePos, bitPos, buf)
  | fuel + 1, b, bitsLeftInSource, bytePos, bitPos, buf =>
    let bitsLeftInTarget := bpc - bitPos
    let buf := buf.set bytePos (buf.getD bytePos 0 ||| (b >>> (8 - bitsLeftInTarget)))
    if bitsLeftInTarget ≤ bitsLeftInSource then
      let bytePos := bytePos + 1
      let bitsLeftInSource := bitsLeftInSource - bitsLeftInTarget
      if bitsLeftInSource = 0 then (bytePos, 0, buf)
      else encPackBits bpc fuel ((b <<< bitsLeftInTarget) &&& 0xff) bitsLeftInSource bytePos 0 buf
    else (bytePos, bitPos + bitsLeftInSource, buf)

/-- One iteration of the outer input loop of BaseN_Encoder::Put2
(lines 39-82): the block-start memset, the bit-packing of one byte, and the
translate-and-flush step when the working buffer is full. -/
def encPutByte (st : EncState) (b : Nat) : EncState × List Nat :=
  let buf0 := if st.bytePos = 0 then List.replicate st.outputBlockSize 0 else st.outBuf
  let (bytePos, bitPos, buf) := encPackBits st.bitsPerChar 9 b 8 st.bytePos st.bitPos buf0
  if bytePos = st.outputBlockSize then
    let tbuf := buf.map fun v => st.alphabet.getD v 0
    ({ st with bytePos := 0, bitPos := 0, outBuf := tbuf }, tbuf)
  else
    ({ st with bytePos := bytePos, bitPos := bitPos, outBuf := buf }, [])

/-- The input loop of BaseN_Encoder::Put2 over a byte list. -/
def encPutLoop (st : EncState) : List Nat → EncState × List Nat
  | [] => (st, [])
  | b :: rest =>
    let (st1, o1) := encPutByte st b
    let (st2, o2) := encPutLoop st1 rest
    (st2, o1 ++ o2)

/-- The messageEnd block of BaseN_Encoder::Put2 (lines 83-99): finalize a
partial symbol, translate the buffered symbols, pad if enabled, flush, and
reset the cursor. -/
def encPutEnd (st : EncState) : EncState × List Nat :=
  let bytePos := if 0 < st.bitPos then st.bytePos + 1 else st.bytePos
  let buf := (st.outBuf.take bytePos).map (fun v => st.alphabet.getD v 0) ++
    st.outBuf.drop bytePos
  if st.padding ≠ -1 ∧ 0 < bytePos then
    let buf := buf.take bytePos ++
      List.replicate (st.outputBlockSize - bytePos) st.padding.toNat
    ({ st with bytePos := 0, bitPos := 0, outBuf := buf }, buf)
  else
    ({ st with bytePos := 0, bitPos := 0, outBuf := buf }, buf.take bytePos)

/-- BaseN_Encoder::Put2 (lines 36-101). -/
def BaseN_Encoder.Put2 (st : EncState) (input : List Nat) (messageEnd : Bool) :
    EncState × List Nat :=
  let (st1, o1) := encPutLoop st input
  if messageEnd then
    let (st2, o2) := encPutEnd st1
    (st2, o1 ++ o2)
  else (st1, o1)

/-- Modelled from the spec: the NameValuePairs parameter bag handed to
BaseN_Encoder::IsolatedInitialize; `none` components are absent parameters. -/
structure EncParams where
  encodingLookupArray : Option (List Nat)
  log2Base : Option Int
  paddingByte : Option Nat
  pad : Option Bool

/-- The errors surfaced by codec initialization (spec section 7). -/
inductive InitError where
  | missingRequiredParameter
  | invalidArgument
  deriving Repr, DecidableEq

/-- BaseN_Encoder::IsolatedInitialize (lines 10-34).  GetRequiredParameter
throws MissingRequiredParameter when the parameter is absent;
`GetValueWithDefault ("Pad", true)` is consulted only when PaddingByte is
present.  The output block size is the smallest `i/bitsPerChar` with `i` a
positive multiple of 8 divisible by bitsPerChar; the while-loop of lines 28-31
is transcribed with fuel 8, enough for every `bitsPerChar` in 1..7. -/
def blockSizeLoop (bpc : Nat) : Nat → Nat → Nat
  | 0, i => i
  | fuel + 1, i => if i % bpc = 0 then i else blockSizeLoop bpc fuel (i + 8)

/-- BaseN_Encoder::IsolatedInitialize (lines 10-34). -/
def BaseN_Encoder.IsolatedInitialize (p : EncParams) : Except InitError EncState :=
  match p.encodingLookupArray with
  | none => .error .missingRequiredParameter
  | some alphabet =>
    match p.log2Base with
    | none => .error .missingRequiredParameter
    | some b =>
      if b ≤ 0 ∨ 8 ≤ b then .error .invalidArgument
      else
        let padding : Int :=
          match p.paddingByte with
          | some pb => if p.pad.getD true then (pb : Int) else -1
          | none => -1
        let bpc := b.toNat
        let obs := blockSizeLoop bpc 8 8 / bpc
        .ok { bitsPerChar := bpc, alphabet := alphabet, padding := padding,
              outputBlockSize := obs, bytePos := 0, bitPos := 0,
              outBuf := List.replicate obs 0 }

/-- The state of a BaseN_Decoder.  `lookup` is the int array m_lookup. -/
structure DecState where
  bitsPerChar : Nat
  lookup : List Int
  outputBlockSize : Nat
  bytePos : Nat
  bitPos : Nat
  outBuf : List Nat
  deriving Repr, DecidableEq

/-- The `unsigned int value = m_lookup[...]` read at line 127: conversion of
the signed int entry to unsigned (the sentinel -1 becomes 2^32-1). -/
def uintOfInt (x : Int) : Nat := (x % (2 ^ 32 : Int)).toNat

/-- One iteration of the input loop of BaseN_Decoder::Put2 (lines 124-156):
lookup, skip non-alphabet characters, block-start memset, OR the symbol bits
into the working byte buffer (byte stores truncate modulo 256), advance the
cursor, flush a full block. -/
def decPutChar (st : DecState) (c : Nat) : DecState × List Nat :=
  let value := uintOfInt (st.lookup.getD c 0)
  if 256 ≤ value then (st, [])
  else
    let buf := if st.bytePos = 0 ∧ st.bitPos = 0 then
      List.replicate st.outputBlockSize 0 else st.outBuf
    let newBitPos := st.bitPos + st.bitsPerChar
    let buf :=
      if newBitPos ≤ 8 then
        buf.set st.bytePos ((buf.getD st.bytePos 0 ||| (value <<< (8 - newBitPos))) &&& 255)
      else
        let buf := buf.set st.bytePos
          ((buf.getD st.bytePos 0 ||| (value >>> (newBitPos - 8))) &&& 255)
        buf.set (st.bytePos + 1)
          ((buf.getD (st.bytePos + 1) 0 ||| (value <<< (16 - newBitPos))) &&& 255)
    let (bytePos, bitPos) :=
      if 8 ≤ newBitPos then (st.bytePos + 1, newBitPos - 8) else (st.bytePos, newBitPos)
    if bytePos = st.outputBlockSize then
      ({ st with bytePos := 0, bitPos := 0, outBuf := buf }, buf)
    else
      ({ st with bytePos := bytePos, bitPos := bitPos, outBuf := buf }, [])

/-- The input loop of BaseN_Decoder::Put2 over a character list. -/
def decPutLoop (st : DecState) : List Nat → DecState × List Nat
  | [] => (st, [])
  | c :: rest =>
    let (st1, o1) := decPutChar st c
    let (st2, o2) := decPutLoop st1 rest
    (st2, o1 ++ o2)

/-- BaseN_Decoder::Put2 (lines 121-164); at messageEnd the `bytePos` fully
assembled bytes are flushed and the cursor resets. -/
def BaseN_Decoder.Put2 (st : DecState) (input : List Nat) (messageEnd : Bool) :
    DecState × List Nat :=
  let (st1, o1) := decPutLoop st input
  if messageEnd then
    ({ st1 with bytePos := 0, bitPos := 0 }, o1 ++ st1.outBuf.take st1.bytePos)
  else (st1, o1)

/-- Modelled from the spec: ctype.h isalpha for the C locale (ASCII letters). -/
def isalphaC (c : Nat) : Bool := (65 ≤ c ∧ c ≤ 90) ∨ (97 ≤ c ∧ c ≤ 122)

/-- Modelled from the spec: ctype.h toupper for the C locale. -/
def toupperC (c : Nat) : Nat := if 97 ≤ c ∧ c ≤ 122 then c - 32 else c

/-- Modelled from the spec: ctype.h tolower for the C locale. -/
def tolowerC (c : Nat) : Nat := if 65 ≤ c ∧ c ≤ 90 then c + 32 else c

/-- BaseN_Decoder::InitializeDecodingLookupArray (lines 166-185): fill with
-1, then register each alphabet character (both cases when caseInsensitive and
the character is alphabetic). -/
def InitializeDecodingLookupArray (alphabet : List Nat) (base : Nat)
    (caseInsensitive : Bool) : List Int :=
  (List.range base).foldl
    (fun lk i =>
      let a := alphabet.getD i 0
      if caseInsensitive && isalphaC a then
        (lk.set (toupperC a) (i : Int)).set (tolowerC a) (i : Int)
      else lk.set a (i : Int))
    (List.replicate 256 (-1 : Int))

/-- The state of a Grouper. -/
structure GrouperState where
  groupSize : Nat
  separator : List Nat
  terminator : List Nat
  counter : Nat
  deriving Repr, DecidableEq

/-- The input loop of Grouper::Put2 for `groupSize ≠ 0` (lines 205-218),
transcribed byte by byte: the C code forwards input in maximal contiguous runs
bounded by `groupSize - counter`, which emits the same byte sequence as
forwarding one byte at a time with the separator inserted whenever the counter
reaches the group size before a further byte is forwarded. -/
def grouperLoop (g : Nat) (sep : List Nat) : Nat → List Nat → Nat × List Nat
  | counter, [] => (counter, [])
  | counter, b :: rest =>
    if counter = g then
      let (c2, out) := grouperLoop g sep 1 rest
      (c2, sep ++ b :: out)
    else
      let (c2, out) := grouperLoop g sep (counter + 1) rest
      (c2, b :: out)

/-- Grouper::Put2 (lines 200-229): group or forward, then emit the terminator
and reset the counter at messageEnd. -/
def Grouper.Put2 (st : GrouperState) (input : List Nat) (messageEnd : Bool) :
    GrouperState × List Nat :=
  let (c1, o1) :=
    if st.groupSize ≠ 0 then grouperLoop st.groupSize st.separator st.counter input
    else (st.counter, input)
  if messageEnd then
    ({ st with counter := 0 }, o1 ++ st.terminator)
  else ({ st with counter := c1 }, o1)

/-! ## Support definitions for the statements and proofs -/

/-- The byte list s split into consecutive groups of `g` bytes (the last group
possibly shorter); used to state the Grouper property. -/
def chunksOf (g : Nat) : List Nat → List (List Nat)
  | [] => []
  | a :: l => (a :: l.take (g - 1)) :: chunksOf g (l.drop (g - 1))
  termination_by l => l.length
  decreasing_by simp; omega

/-- Joins a list of groups with one copy of `sep` between consecutive groups,
none before the first and none after the last. -/
def joinSep (sep : List Nat) : List (List Nat) → List Nat
  | [] => []
  | x :: xs => x ++ (match xs with | [] => [] | _ :: _ => sep ++ joinSep sep xs)

/-- The standard Base64 alphabet, used in the concrete scenarios. -/
def b64alpha : List Nat :=
  (String.toList "ABCDEFGHIJKLMNOPQRSTUVWXYZabcdefghijklmnopqrstuvwxyz0123456789+/").map
    Char.toNat

/-- The parameters of a padded Base64 encoder. -/
def b64params : EncParams :=
  { encodingLookupArray := some b64alpha, log2Base := some 6,
    paddingByte := some 61, pad := none }

/-- Output specification of one grouperLoop call: the input split into a first
(possibly partial, possibly empty) group of `g - c` bytes and further groups
of `g` bytes, joined with the separator. -/
def grouperLoopSpec (g : Nat) (sep : List Nat) (c : Nat) (s : List Nat) : List Nat :=
  joinSep sep (s.take (g - c) :: chunksOf g (s.drop (g - c)))

/-- The decoding lookup array built from the Base64 alphabet. -/
def b64lookup : List Int := InitializeDecodingLookupArray b64alpha 64 false

/-- The initialized padded Base64 encoder state. -/
def b64encState : EncState :=
  { bitsPerChar := 6, alphabet := b64alpha, padding := (61 : Int),
    outputBlockSize := 4, bytePos := 0, bitPos := 0, outBuf := List.replicate 4 0 }

/-- An initialized Base64 decoder state. -/
def b64decState : DecState :=
  { bitsPerChar := 6, lookup := b64lookup, outputBlockSize := 3,
    bytePos := 0, bitPos := 0, outBuf := List.replicate 3 0 }

/-- Encoder parameters with a Pad=true option but no PaddingByte. -/
def noPadParams : EncParams :=
  { encodingLookupArray := some b64alpha, log2Base := some 6,
    paddingByte := none, pad := some true }

/-- The encoder state produced by initializing with `noPadParams`. -/
def noPadState : EncState :=
  { bitsPerChar := 6, alphabet := b64alpha, padding := -1,
    outputBlockSize := 4, bytePos := 0, bitPos := 0, outBuf := List.replicate 4 0 }

/-- The number of output symbols buffered at end of message, after finalizing
a partial symbol (m_bytePos after lines 85-86 of basecode.cpp). -/
def encFinalSymbolCount (st : EncState) : Nat :=
  if 0 < st.bitPos then st.bytePos + 1 else st.bytePos

/-! ### Support definitions for the AES round-trip proof (C2) -/

def midW (a b c d : Nat) : Nat :=
  SeAt (getByte a 0) ^^^ (SeAt (getByte b 1) <<< 8) ^^^ (SeAt (getByte c 2) <<< 16) ^^^
    (SeAt (getByte d 3) <<< 24)

def Fw (w : Nat) : Nat :=
  rotr32 (tdy (getByte w 0)) 24 ^^^ rotr32 (tdy (getByte w 1)) 16 ^^^
    rotr32 (tdy (getByte w 2)) 8 ^^^ tdy (getByte w 3)

def M4 : Nat × Nat × Nat × Nat → Nat × Nat × Nat × Nat
  | (u0, u1, u2, u3) =>
    (midW u3 u2 u1 u0, midW u0 u3 u2 u1, midW u1 u0 u3 u2, midW u2 u1 u0 u3)

def lt4 : Nat × Nat × Nat × Nat → Prop
  | (t0, t1, t2, t3) => t0 < 2 ^ 32 ∧ t1 < 2 ^ 32 ∧ t2 < 2 ^ 32 ∧ t3 < 2 ^ 32

def encRounds (rk : List Nat) : Nat → Nat → Nat × Nat × Nat × Nat → Nat × Nat × Nat × Nat
  | 0, _, t => t
  | n + 1, off, (t0, t1, t2, t3) =>
    encRounds rk n (off + 4)
      (encRound (rk.getD off 0) (rk.getD (off + 1) 0) (rk.getD (off + 2) 0)
        (rk.getD (off + 3) 0) t0 t1 t2 t3)

def decRounds (rk : List Nat) : Nat → Nat → Nat × Nat × Nat × Nat → Nat × Nat × Nat × Nat
  | 0, _, t => t
  | n + 1, off, (t0, t1, t2, t3) =>
    decRounds rk n (off + 4)
      (decRound (rk.getD off 0) (rk.getD (off + 1) 0) (rk.getD (off + 2) 0)
        (rk.getD (off + 3) 0) t0 t1 t2 t3)

def encLastW (K0 K1 K2 K3 t0 t1 t2 t3 : Nat) : List Nat :=
  let tb15 := TeByte1 (getByte t2 0)
  let tb2 := TeByte1 (getByte t2 1)
  let tb5 := TeByte1 (getByte t2 2)
  let tb8 := TeByte1 (t2 >>> 24)
  let tb11 := TeByte1 (getByte t1 0)
  let tb14 := TeByte1 (getByte t1 1)
  let tb1 := TeByte1 (getByte t1 2)
  let tb4 := TeByte1 (t1 >>> 24)
  let tb7 := TeByte1 (getByte t0 0)
  let tb10 := TeByte1 (getByte t0 1)
  let tb13 := TeByte1 (getByte t0 2)
  let tb0 := TeByte1 (t0 >>> 24)
  let tb3 := TeByte1 (getByte t3 0)
  let tb6 := TeByte1 (getByte t3 1)
  let tb9 := TeByte1 (getByte t3 2)
  let tb12 := TeByte1 (t3 >>> 24)
  let tbw0 := tb0 ||| (tb1 <<< 8) ||| (tb2 <<< 16) ||| (tb3 <<< 24)
  let tbw1 := tb4 ||| (tb5 <<< 8) ||| (tb6 <<< 16) ||| (tb7 <<< 24)
  let tbw2 := tb8 ||| (tb9 <<< 8) ||| (tb10 <<< 16) ||| (tb11 <<< 24)
  let tbw3 := tb12 ||| (tb13 <<< 8) ||| (tb14 <<< 16) ||| (tb15 <<< 24)
  let obw0 := tbw0 ^^^ K0
  let obw1 := tbw1 ^^^ K1
  let obw2 := tbw2 ^^^ K2
  let obw3 := tbw3 ^^^ K3
  [getByte obw0 0, getByte obw0 1, getByte obw0 2, getByte obw0 3,
   getByte obw1 0, getByte obw1 1, getByte obw1 2, getByte obw1 3,
   getByte obw2 0, getByte obw2 1, getByte obw2 2, getByte obw2 3,
   getByte obw3 0, getByte obw3 1, getByte obw3 2, getByte obw3 3]

def decLastW (K0 K1 K2 K3 t0 t1 t2 t3 : Nat) : List Nat :=
  let tb7 := SdAt (getByte t2 0)
  let tb2 := SdAt (getByte t2 1)
  let tb13 := SdAt (getByte t2 2)
  let tb8 := SdAt (t2 >>> 24)
  let tb3 := SdAt (getByte t1 0)
  let tb14 := SdAt (getByte t1 1)
  let tb9 := SdAt (getByte t1 2)
  let tb4 := SdAt (t1 >>> 24)
  let tb15 := SdAt (getByte t0 0)
  let tb10 := SdAt (getByte t0 1)
  let tb5 := SdAt (getByte t0 2)
  let tb0 := SdAt (t0 >>> 24)
  let tb11 := SdAt (getByte t3 0)
  let tb6 := SdAt (getByte t3 1)
  let tb1 := SdAt (getByte t3 2)
  let tb12 := SdAt (t3 >>> 24)
  let tbw0 := tb0 ||| (tb1 <<< 8) ||| (tb2 <<< 16) ||| (tb3 <<< 24)
  let tbw1 := tb4 ||| (tb5 <<< 8) ||| (tb6 <<< 16) ||| (tb7 <<< 24)
  let tbw2 := tb8 ||| (tb9 <<< 8) ||| (tb10 <<< 16) ||| (tb11 <<< 24)
  let tbw3 := tb12 ||| (tb13 <<< 8) ||| (tb14 <<< 16) ||| (tb15 <<< 24)
  let obw0 := tbw0 ^^^ K0
  let obw1 := tbw1 ^^^ K1
  let obw2 := tbw2 ^^^ K2
  let obw3 := tbw3 ^^^ K3
  [getByte obw0 0, getByte obw0 1, getByte obw0 2, getByte obw0 3,
   getByte obw1 0, getByte obw1 1, getByte obw1 2, getByte obw1 3,
   getByte obw2 0, getByte obw2 1, getByte obw2 2, getByte obw2 3,
   getByte obw3 0, getByte obw3 1, getByte obw3 2, getByte obw3 3]

def encLastT (rk : List Nat) (off : Nat) : Nat × Nat × Nat × Nat → List Nat
  | (t0, t1, t2, t3) => encLast rk off t0 t1 t2 t3

def decLastT (rk : List Nat) (off : Nat) : Nat × Nat × Nat × Nat → List Nat
  | (t0, t1, t2, t3) => decLast rk off t0 t1 t2 t3

/-! ## Theorems -/

theorem SeN_matches : ∀ i : Fin 256, SeAt i = Se.getD i 0 := by decide

theorem SdN_matches : ∀ i : Fin 256, SdAt i = Sd.getD i 0 := by decide

theorem rconN_matches : ∀ i : Fin 14, rconAt i = rcon.getD i 0 := by decide

/-! ### C4: the Te table entries -/

/-- C4 counterexample: at index 0 the entry `Te[0]` differs from the word
`Se[0] | Se[0]<<8 | f2(Se[0])<<16 | f3(Se[0])<<24` stated by the claim
(the code stores `f3(x) | x<<8 | x<<16 | f2(x)<<24` instead). -/
theorem Te_entry_not_as_claimed :
    ¬ TeAt 0 = (SeAt 0 ||| (SeAt 0 <<< 8) ||| (f2 (SeAt 0) <<< 16) |||
      (f3 (SeAt 0) <<< 24)) := by decide

/-- C4 amended: for every index `i`, the entry `Te[i]` is the byte-rotation by
one byte of the claimed word — `Te[i] = rotr(Se[i] | Se[i]<<8 | f2(Se[i])<<16 |
f3(Se[i])<<24, 24)`, i.e. its bytes are (3*Se[i], Se[i], Se[i], 2*Se[i]) from
least to most significant — and the three rotated variants stored at
`i + j*256` are the byte-rotations `rotr(Te[i], 8*j)` of that word. -/
theorem Te_entry_amended :
    ∀ i : Fin 256,
      TeAt i.val = rotr32 (SeAt i.val ||| (SeAt i.val <<< 8) |||
        (f2 (SeAt i.val) <<< 16) ||| (f3 (SeAt i.val) <<< 24)) 24 ∧
      ∀ j : Fin 4, TeAt (i.val + 256 * j.val) = rotr32 (TeAt i.val) (8 * j.val) := by
  decide

/-! ### C7: the Grouper -/

theorem joinSep_nil (sep : List Nat) : joinSep sep [] = [] := rfl

theorem joinSep_single (sep : List Nat) (x : List Nat) : joinSep sep [x] = x := by
  simp [joinSep]

theorem joinSep_cons_cons (sep x y : List Nat) (ys : List (List Nat)) :
    joinSep sep (x :: y :: ys) = x ++ sep ++ joinSep sep (y :: ys) := by
  simp [joinSep]

theorem chunksOf_ne_nil (g : Nat) (a : Nat) (l : List Nat) :
    chunksOf g (a :: l) ≠ [] := by
  simp [chunksOf]

/-- Prepending an element to the head group commutes with joining. -/
theorem joinSep_cons_head (sep : List Nat) (a : Nat) (x : List Nat)
    (xs : List (List Nat)) :
    joinSep sep ((a :: x) :: xs) = a :: joinSep sep (x :: xs) := by
  cases xs <;> simp [joinSep]

theorem grouperLoop_out (g : Nat) (sep : List Nat) (hg : 0 < g) :
    ∀ (s : List Nat) (c : Nat), c ≤ g →
      (grouperLoop g sep c s).2 = grouperLoopSpec g sep c s := by
  intro s
  induction s with
  | nil => intro c _; simp [grouperLoop, grouperLoopSpec, joinSep, chunksOf]
  | cons a l ih =>
    intro c hc
    by_cases hcg : c = g
    · subst hcg
      have h1 : (grouperLoop c sep 1 l).2 = grouperLoopSpec c sep 1 l := ih 1 hg
      have hch : chunksOf c (a :: l) =
          (a :: l.take (c - 1)) :: chunksOf c (l.drop (c - 1)) := by
        simp [chunksOf]
      simp only [grouperLoop, if_pos rfl, h1, grouperLoopSpec, Nat.sub_self,
        List.take_zero, List.drop_zero, hch, joinSep_cons_cons, joinSep_cons_head]
      simp
    · have hlt : c < g := by omega
      have hgc : g - c = (g - c - 1) + 1 := by omega
      have h1 : (grouperLoop g sep (c + 1) l).2 = grouperLoopSpec g sep (c + 1) l :=
        ih (c + 1) (by omega)
      have htake : (a :: l).take (g - c) = a :: l.take (g - c - 1) := by rw [hgc]; rfl
      have hdrop : (a :: l).drop (g - c) = l.drop (g - c - 1) := by rw [hgc]; rfl
      have harith : g - (c + 1) = g - c - 1 := by omega
      simp only [grouperLoop, if_neg hcg, h1, grouperLoopSpec, htake, hdrop,
        joinSep_cons_head, harith]

theorem grouperLoopSpec_zero (g : Nat) (sep : List Nat) (hg : 0 < g) (s : List Nat) :
    grouperLoopSpec g sep 0 s = joinSep sep (chunksOf g s) := by
  cases s with
  | nil => simp [grouperLoopSpec, chunksOf, joinSep]
  | cons a l =>
    have hg1 : g = (g - 1) + 1 := by omega
    simp only [grouperLoopSpec, Nat.sub_zero]
    rw [show (a :: l).take g = a :: l.take (g - 1) by rw [hg1]; rfl,
      show (a :: l).drop g = l.drop (g - 1) by rw [hg1]; rfl,
      show chunksOf g (a :: l) = (a :: l.take (g - 1)) :: chunksOf g (l.drop (g - 1)) by
        simp [chunksOf]]

/-- C7: from a fresh counter, the Grouper with positive group size `g` emits
the input in groups of `g` bytes with exactly one separator between
consecutive groups — none before the first group, none after the last — then
the terminator at end of message, and the counter resets. -/
theorem grouper_separator_placement (st : GrouperState) (s : List Nat)
    (hc : st.counter = 0) (hg : 0 < st.groupSize) :
    Grouper.Put2 st s true =
      ({ st with counter := 0 },
        joinSep st.separator (chunksOf st.groupSize s) ++ st.terminator) := by
  have hne : st.groupSize ≠ 0 := by omega
  simp only [Grouper.Put2, if_pos hne, ne_eq, not_false_eq_true, ↓reduceIte]
  rw [hc, grouperLoop_out st.groupSize st.separator hg s 0 (by omega),
    grouperLoopSpec_zero st.groupSize st.separator hg s]

/-- C7 witness: group size 4, separator " ", terminator a newline, input
"TWFuTWFu" produces "TWFu TWFu\n". -/
theorem grouper_separator_placement_witness :
    Grouper.Put2 ⟨4, [32], [10], 0⟩ [84, 87, 70, 117, 84, 87, 70, 117] true =
      (⟨4, [32], [10], 0⟩, [84, 87, 70, 117, 32, 84, 87, 70, 117, 10]) := by
  rw [grouper_separator_placement _ _ rfl (by decide)]
  simp [chunksOf, joinSep]

/-! ### C6: the decoder ignores non-alphabet characters -/

theorem decPutChar_ignored (st : DecState) (c : Nat)
    (h : 256 ≤ uintOfInt (st.lookup.getD c 0)) : decPutChar st c = (st, []) := by
  simp only [decPutChar]
  rw [if_pos h]

theorem decPutChar_lookup (st : DecState) (c : Nat) :
    ((decPutChar st c).1).lookup = st.lookup := by
  simp only [decPutChar]
  split_ifs <;> rfl

theorem decPutLoop_filter (lk : List Int) :
    ∀ (s : List Nat) (st : DecState), st.lookup = lk →
      decPutLoop st s =
        decPutLoop st (s.filter fun c => uintOfInt (lk.getD c 0) < 256) := by
  intro s
  induction s with
  | nil => intro st _; rfl
  | cons c rest ih =>
    intro st h
    by_cases hig : 256 ≤ uintOfInt (lk.getD c 0)
    · have hskip : decPutChar st c = (st, []) := decPutChar_ignored st c (h ▸ hig)
      have hfil : (c :: rest).filter (fun c => uintOfInt (lk.getD c 0) < 256) =
          rest.filter (fun c => uintOfInt (lk.getD c 0) < 256) := by
        simp only [List.filter_cons]
        rw [if_neg (by simpa using hig)]
      rw [hfil, ← ih st h]
      simp [decPutLoop, hskip]
    · have hfil : (c :: rest).filter (fun c => uintOfInt (lk.getD c 0) < 256) =
          c :: rest.filter (fun c => uintOfInt (lk.getD c 0) < 256) := by
        simp only [List.filter_cons]
        rw [if_pos (by simpa using Nat.lt_of_not_le hig)]
      rw [hfil]
      simp only [decPutLoop]
      rw [← ih (decPutChar st c).1 (by rw [decPutChar_lookup, h])]

/-- C6: a character whose lookup entry is the ignore sentinel (converted to
unsigned, any value at least 256, in particular -1) leaves the decoder state
unchanged and emits nothing; consequently the decoder output for any input
equals the output for the input with all ignored characters removed, wherever
they occur. -/
theorem decoder_ignores_non_alphabet :
    (∀ (st : DecState) (c : Nat), 256 ≤ uintOfInt (st.lookup.getD c 0) →
      decPutChar st c = (st, [])) ∧
    (∀ (st : DecState) (s : List Nat) (e : Bool),
      BaseN_Decoder.Put2 st s e =
        BaseN_Decoder.Put2 st (s.filter fun c => uintOfInt (st.lookup.getD c 0) < 256) e) := by
  refine ⟨decPutChar_ignored, fun st s e => ?_⟩
  simp only [BaseN_Decoder.Put2]
  rw [← decPutLoop_filter st.lookup s st rfl]

/-- C6 witness: the space character (lookup entry -1) is ignored by the
Base64 decoder. -/
theorem decoder_ignores_witness :
    decPutChar b64decState 32 = (b64decState, []) ∧
    BaseN_Decoder.Put2 b64decState [84, 32, 87, 69, 10, 61] true =
      BaseN_Decoder.Put2 b64decState [84, 87, 69, 61] true := by
  constructor
  · exact decoder_ignores_non_alphabet.1 b64decState 32 (by decide)
  · have h := decoder_ignores_non_alphabet.2 b64decState [84, 32, 87, 69, 10, 61] true
    rw [h]
    rfl

/-! ### C10: chunking invariance of the streaming operations -/

theorem encPutLoop_append (a : List Nat) :
    ∀ (st : EncState) (b : List Nat),
      encPutLoop st (a ++ b) =
        ((encPutLoop (encPutLoop st a).1 b).1,
         (encPutLoop st a).2 ++ (encPutLoop (encPutLoop st a).1 b).2) := by
  induction a with
  | nil => intro st b; simp [encPutLoop]
  | cons x xs ih =>
    intro st b
    simp only [List.cons_append, encPutLoop, List.append_eq]
    rw [ih (encPutByte st x).1 b]
    simp [List.append_assoc]

theorem decPutLoop_append (a : List Nat) :
    ∀ (st : DecState) (b : List Nat),
      decPutLoop st (a ++ b) =
        ((decPutLoop (decPutLoop st a).1 b).1,
         (decPutLoop st a).2 ++ (decPutLoop (decPutLoop st a).1 b).2) := by
  induction a with
  | nil => intro st b; simp [decPutLoop]
  | cons x xs ih =>
    intro st b
    simp only [List.cons_append, decPutLoop, List.append_eq]
    rw [ih (decPutChar st x).1 b]
    simp [List.append_assoc]

theorem grouperLoop_append (g : Nat) (sep : List Nat) (a : List Nat) :
    ∀ (c : Nat) (b : List Nat),
      grouperLoop g sep c (a ++ b) =
        ((grouperLoop g sep (grouperLoop g sep c a).1 b).1,
         (grouperLoop g sep c a).2 ++ (grouperLoop g sep (grouperLoop g sep c a).1 b).2) := by
  induction a with
  | nil => intro c b; simp [grouperLoop]
  | cons x xs ih =>
    intro c b
    by_cases hc : c = g
    · simp only [List.cons_append, grouperLoop, if_pos hc, List.append_eq]
      rw [ih 1 b]
      simp [List.append_assoc]
    · simp only [List.cons_append, grouperLoop, if_neg hc, List.append_eq]
      rw [ih (c + 1) b]

theorem enc_put2_false (st : EncState) (a : List Nat) :
    BaseN_Encoder.Put2 st a false = encPutLoop st a := by
  simp [BaseN_Encoder.Put2]

theorem enc_put2_true (st : EncState) (a : List Nat) :
    BaseN_Encoder.Put2 st a true =
      ((encPutEnd (encPutLoop st a).1).1,
       (encPutLoop st a).2 ++ (encPutEnd (encPutLoop st a).1).2) := by
  simp [BaseN_Encoder.Put2]

theorem dec_put2_false (st : DecState) (a : List Nat) :
    BaseN_Decoder.Put2 st a false = decPutLoop st a := by
  simp [BaseN_Decoder.Put2]

theorem dec_put2_true (st : DecState) (a : List Nat) :
    BaseN_Decoder.Put2 st a true =
      ({ (decPutLoop st a).1 with bytePos := 0, bitPos := 0 },
       (decPutLoop st a).2 ++
         (decPutLoop st a).1.outBuf.take (decPutLoop st a).1.bytePos) := by
  simp [BaseN_Decoder.Put2]

/-- C10: for each of BaseN_Encoder, BaseN_Decoder and Grouper, splitting the
input into put(a, no end) followed by put(b, end of message) produces the same
final state and the same concatenated output as a single
put(a ++ b, end of message). -/
theorem streaming_chunking_invariant :
    (∀ (st : EncState) (a b : List Nat),
      BaseN_Encoder.Put2 st (a ++ b) true =
        ((BaseN_Encoder.Put2 (BaseN_Encoder.Put2 st a false).1 b true).1,
         (BaseN_Encoder.Put2 st a false).2 ++
           (BaseN_Encoder.Put2 (BaseN_Encoder.Put2 st a false).1 b true).2)) ∧
    (∀ (st : DecState) (a b : List Nat),
      BaseN_Decoder.Put2 st (a ++ b) true =
        ((BaseN_Decoder.Put2 (BaseN_Decoder.Put2 st a false).1 b true).1,
         (BaseN_Decoder.Put2 st a false).2 ++
           (BaseN_Decoder.Put2 (BaseN_Decoder.Put2 st a false).1 b true).2)) ∧
    (∀ (st : GrouperState) (a b : List Nat),
      Grouper.Put2 st (a ++ b) true =
        ((Grouper.Put2 (Grouper.Put2 st a false).1 b true).1,
         (Grouper.Put2 st a false).2 ++
           (Grouper.Put2 (Grouper.Put2 st a false).1 b true).2)) := by
  refine ⟨fun st a b => ?_, fun st a b => ?_, fun st a b => ?_⟩
  · rw [enc_put2_true, enc_put2_false, enc_put2_true, encPutLoop_append a st b]
    simp [List.append_assoc]
  · rw [dec_put2_true, dec_put2_false, dec_put2_true, decPutLoop_append a st b]
    simp [List.append_assoc]
  · by_cases hg : st.groupSize ≠ 0
    · have e1 : Grouper.Put2 st (a ++ b) true =
          ({ st with counter := 0 },
            (grouperLoop st.groupSize st.separator st.counter (a ++ b)).2 ++ st.terminator) := by
        simp [Grouper.Put2, if_pos hg]
      have e2 : Grouper.Put2 st a false =
          ({ st with counter := (grouperLoop st.groupSize st.separator st.counter a).1 },
            (grouperLoop st.groupSize st.separator st.counter a).2) := by
        simp [Grouper.Put2, if_pos hg]
      have e3 : Grouper.Put2
            ({ st with counter := (grouperLoop st.groupSize st.separator st.counter a).1 }) b true =
          ({ st with counter := 0 },
            (grouperLoop st.groupSize st.separator
              (grouperLoop st.groupSize st.separator st.counter a).1 b).2 ++ st.terminator) := by
        simp [Grouper.Put2, if_pos hg]
      rw [e1, e2, e3, grouperLoop_append st.groupSize st.separator a st.counter b]
      simp [List.append_assoc]
    · have e1 : Grouper.Put2 st (a ++ b) true =
          ({ st with counter := 0 }, (a ++ b) ++ st.terminator) := by
        simp [Grouper.Put2, if_neg hg]
      have e2 : Grouper.Put2 st a false = ({ st with counter := st.counter }, a) := by
        simp [Grouper.Put2, if_neg hg]
      have e3 : Grouper.Put2 ({ st with counter := st.counter }) b true =
          ({ st with counter := 0 }, b ++ st.terminator) := by
        simp [Grouper.Put2, if_neg hg]
      rw [e1, e2, e3]
      simp [List.append_assoc]

/-! ### C9: padding is disabled when PaddingByte is absent -/

/-- The final flush output when padding is disabled: exactly the translated
buffered symbols, with nothing appended. -/
theorem encPutEnd_no_padding (st : EncState) (h : st.padding = -1) :
    (encPutEnd st).2 =
      (st.outBuf.take (if 0 < st.bitPos then st.bytePos + 1 else st.bytePos)).map
        fun v => st.alphabet.getD v 0 := by
  simp only [encPutEnd, h]
  rw [if_neg (by simp)]
  generalize (if 0 < st.bitPos then st.bytePos + 1 else st.bytePos) = bp
  rcases le_or_lt bp st.outBuf.length with hle | hlt
  · rw [List.take_append_of_le_length
        (by simp only [List.length_map, List.length_take]; omega)]
    exact List.take_of_length_le
      (by simp only [List.length_map, List.length_take]; omega)
  · rw [List.drop_eq_nil_of_le (by omega), List.append_nil]
    exact List.take_of_length_le
      (by simp only [List.length_map, List.length_take]; omega)

/-- C9: when the PaddingByte parameter is absent, IsolatedInitialize disables
padding unconditionally (m_padding = -1), even when an explicit Pad=true
parameter is supplied, and the end-of-message flush of such an encoder never
appends padding: it emits exactly the translated buffered symbols. -/
theorem paddingByte_absent_disables_padding :
    (∀ (p : EncParams) (st : EncState), p.paddingByte = none →
      BaseN_Encoder.IsolatedInitialize p = .ok st → st.padding = -1) ∧
    (∀ st : EncState, st.padding = -1 →
      (encPutEnd st).2 =
        (st.outBuf.take (if 0 < st.bitPos then st.bytePos + 1 else st.bytePos)).map
          fun v => st.alphabet.getD v 0) := by
  refine ⟨fun p st hnone hok => ?_, encPutEnd_no_padding⟩
  rcases hA : p.encodingLookupArray with _ | alpha
  · simp only [BaseN_Encoder.IsolatedInitialize, hA] at hok
    exact absurd hok (by simp)
  · rcases hB : p.log2Base with _ | b
    · simp only [BaseN_Encoder.IsolatedInitialize, hA, hB] at hok
      exact absurd hok (by simp)
    · simp only [BaseN_Encoder.IsolatedInitialize, hA, hB, hnone] at hok
      split at hok
      · exact absurd hok (by simp)
      · injection hok with h
        rw [← h]

/-- C9 witness: initializing with Pad=true but no PaddingByte yields a state
with padding disabled, whose final flush emits only the buffered symbols. -/
theorem paddingByte_absent_witness :
    EncState.padding noPadState = -1 ∧
    (encPutEnd { noPadState with
      bytePos := 1
      bitPos := 2
      outBuf := [19, 16, 0, 0] }).2 = [84, 81] := by
  constructor
  · exact paddingByte_absent_disables_padding.1 noPadParams noPadState rfl rfl
  · rw [paddingByte_absent_disables_padding.2 _ rfl]
    rfl

/-! ### C5: encoder end-of-message behaviour -/

theorem take_translated_append_drop (l : List Nat) (f : Nat → Nat) (bp : Nat) :
    ((l.take bp).map f ++ l.drop bp).take bp = (l.take bp).map f := by
  rcases le_or_lt bp l.length with hle | hlt
  · rw [List.take_append_of_le_length
        (by simp only [List.length_map, List.length_take]; omega)]
    exact List.take_of_length_le
      (by simp only [List.length_map, List.length_take]; omega)
  · rw [List.drop_eq_nil_of_le (by omega), List.append_nil]
    exact List.take_of_length_le
      (by simp only [List.length_map, List.length_take]; omega)

/-- C5: at end of message, when padding is enabled and at least one symbol is
buffered after finalizing the partial symbol, positions bytePos..blockSize of
the output block are filled with the padding byte and exactly blockSize
characters are flushed; otherwise exactly bytePos characters are flushed.  In
particular Base64-encoding "Ma" with padding yields "TWE=" and "M" yields
"TQ==". -/
theorem encoder_end_padding_and_flush :
    (∀ st : EncState, st.outBuf.length = st.outputBlockSize →
      encFinalSymbolCount st ≤ st.outputBlockSize →
      ((st.padding ≠ -1 ∧ 0 < encFinalSymbolCount st →
        (encPutEnd st).2 =
          (st.outBuf.take (encFinalSymbolCount st)).map
            (fun v => st.alphabet.getD v 0) ++
          List.replicate (st.outputBlockSize - encFinalSymbolCount st) st.padding.toNat ∧
        (encPutEnd st).2.length = st.outputBlockSize) ∧
      (¬(st.padding ≠ -1 ∧ 0 < encFinalSymbolCount st) →
        (encPutEnd st).2 =
          (st.outBuf.take (encFinalSymbolCount st)).map
            (fun v => st.alphabet.getD v 0) ∧
        (encPutEnd st).2.length = encFinalSymbolCount st))) ∧
    (∀ st : EncState, BaseN_Encoder.IsolatedInitialize b64params = .ok st →
      (BaseN_Encoder.Put2 st [77, 97] true).2 = [84, 87, 69, 61] ∧
      (BaseN_Encoder.Put2 st [77] true).2 = [84, 81, 61, 61]) := by
  constructor
  · intro st hlen hbp
    constructor
    · intro hcond
      simp only [encPutEnd, encFinalSymbolCount] at hcond ⊢
      rw [if_pos hcond, take_translated_append_drop]
      refine ⟨rfl, ?_⟩
      simp only [List.length_append, List.length_map, List.length_take,
        List.length_replicate]
      simp only [encFinalSymbolCount] at hbp
      omega
    · intro hcond
      simp only [encPutEnd, encFinalSymbolCount] at hcond ⊢
      rw [if_neg hcond, take_translated_append_drop]
      refine ⟨rfl, ?_⟩
      simp only [List.length_map, List.length_take]
      simp only [encFinalSymbolCount] at hbp
      omega
  · intro st hok
    have hE : BaseN_Encoder.IsolatedInitialize b64params = Except.ok b64encState := rfl
    rw [hE] at hok
    injection hok with h
    rw [← h]
    exact ⟨by decide, by decide⟩

/-- C5 witness: the general clause applied to the state reached after feeding
"Ma" to the padded Base64 encoder (bytePos 2, bitPos 4, buffer T,W,16,0),
together with the initialized-state KATs. -/
theorem encoder_end_padding_witness :
    (encPutEnd { b64encState with
      bytePos := 2
      bitPos := 4
      outBuf := [19, 22, 4, 0] }).2 = [84, 87, 69, 61] ∧
    (BaseN_Encoder.Put2 b64encState [77, 97] true).2 = [84, 87, 69, 61] := by
  constructor
  · have h := (encoder_end_padding_and_flush.1
      { b64encState with
        bytePos := 2
        bitPos := 4
        outBuf := [19, 22, 4, 0] } rfl (by decide)).1 (by decide)
    rw [h.1]
    rfl
  · exact ((encoder_end_padding_and_flush.2 b64encState rfl).1)

/-! ### C1: the AES-128 known-answer test -/

/-- C1 counterexample: encrypting the plaintext stated by the claim
(6bc1bee22e409f96e93d7e1173931722, final byte 0x22) under the stated key does
NOT produce the stated ciphertext 3ad77bb40d7a3660a89ecaf32466ef97; the code
produces 41969f7ab0551c80b56cf2a20f8fd192 for that input. -/
theorem aes128_kat_as_claimed_false :
    ¬ aesEncrypt
      [0x2b, 0x7e, 0x15, 0x16, 0x28, 0xae, 0xd2, 0xa6,
       0xab, 0xf7, 0x15, 0x88, 0x09, 0xcf, 0x4f, 0x3c]
      [0x6b, 0xc1, 0xbe, 0xe2, 0x2e, 0x40, 0x9f, 0x96,
       0xe9, 0x3d, 0x7e, 0x11, 0x73, 0x93, 0x17, 0x22] =
      [0x3a, 0xd7, 0x7b, 0xb4, 0x0d, 0x7a, 0x36, 0x60,
       0xa8, 0x9e, 0xca, 0xf3, 0x24, 0x66, 0xef, 0x97] := by decide

/-- C1 amended: with the NIST SP 800-38A plaintext
6bc1bee22e409f96e93d7e117393172a (final byte 0x2a, which the claim mistyped
as 0x22), set_key in the encrypt direction followed by process_and_xor_block
with no xor input produces exactly 3ad77bb40d7a3660a89ecaf32466ef97. -/
theorem aes128_kat :
    aesEncrypt
      [0x2b, 0x7e, 0x15, 0x16, 0x28, 0xae, 0xd2, 0xa6,
       0xab, 0xf7, 0x15, 0x88, 0x09, 0xcf, 0x4f, 0x3c]
      [0x6b, 0xc1, 0xbe, 0xe2, 0x2e, 0x40, 0x9f, 0x96,
       0xe9, 0x3d, 0x7e, 0x11, 0x73, 0x93, 0x17, 0x2a] =
      [0x3a, 0xd7, 0x7b, 0xb4, 0x0d, 0x7a, 0x36, 0x60,
       0xa8, 0x9e, 0xca, 0xf3, 0x24, 0x66, 0xef, 0x97] := by decide

/-! ### AES round-trip (C2) -/

theorem and255_eq_mod (x : Nat) : x &&& 255 = x % 256 := by
  have h := Nat.and_pow_two_sub_one_eq_mod x 8
  norm_num at h
  exact h

theorem getByte_lt (x i : Nat) : getByte x i < 256 :=
  Nat.lt_succ_of_le Nat.and_le_right

theorem testBit_false_of_lt (x n j : Nat) (h : x < 2 ^ n) (hj : n ≤ j) :
    x.testBit j = false :=
  Nat.testBit_lt_two_pow (lt_of_lt_of_le h (Nat.pow_le_pow_right (by omega) hj))

theorem testBit_pack (a b c d j : Nat) (ha : a < 256) (hb : b < 256) (hc : c < 256) :
    (a ||| (b <<< 8) ||| (c <<< 16) ||| (d <<< 24)).testBit j =
      (if j < 8 then a.testBit j else if j < 16 then b.testBit (j - 8)
       else if j < 24 then c.testBit (j - 16) else d.testBit (j - 24)) := by
  simp only [Nat.testBit_or, Nat.testBit_shiftLeft, ge_iff_le]
  rcases lt_or_ge j 8 with h8 | h8
  · rw [if_pos h8]
    simp [show ¬ (8 ≤ j) by omega, show ¬ (16 ≤ j) by omega, show ¬ (24 ≤ j) by omega]
  rcases lt_or_ge j 16 with h16 | h16
  · rw [if_neg (by omega), if_pos h16]
    simp [testBit_false_of_lt a 8 j ha (by omega), show (8 ≤ j) from h8,
      show ¬ (16 ≤ j) by omega, show ¬ (24 ≤ j) by omega]
  rcases lt_or_ge j 24 with h24 | h24
  · rw [if_neg (by omega), if_neg (by omega), if_pos h24]
    simp [testBit_false_of_lt a 8 j ha (by omega),
      testBit_false_of_lt b 8 (j - 8) hb (by omega), show (8 ≤ j) by omega,
      show (16 ≤ j) from h16, show ¬ (24 ≤ j) by omega]
  · rw [if_neg (by omega), if_neg (by omega), if_neg (by omega)]
    simp [testBit_false_of_lt a 8 j ha (by omega),
      testBit_false_of_lt b 8 (j - 8) hb (by omega),
      testBit_false_of_lt c 8 (j - 16) hc (by omega), show (8 ≤ j) by omega,
      show (16 ≤ j) by omega, show (24 ≤ j) from h24]

theorem xor_left_comm (a b c : Nat) : a ^^^ (b ^^^ c) = b ^^^ (a ^^^ c) := by
  rw [← Nat.xor_assoc, Nat.xor_comm a b, Nat.xor_assoc]

theorem getByte_xor (x y i : Nat) :
    getByte (x ^^^ y) i = getByte x i ^^^ getByte y i := by
  apply Nat.eq_of_testBit_eq
  intro j
  simp [getByte, Nat.testBit_and, Nat.testBit_xor, Nat.testBit_shiftRight,
    Bool.and_xor_distrib_right]

theorem getByte_eq_div_mod (x i : Nat) : getByte x i = x / 2 ^ (8 * i) % 256 := by
  rw [getByte, and255_eq_mod, Nat.shiftRight_eq_div_pow]

theorem getByte_eq_self (x : Nat) (h : x < 256) : getByte x 0 = x := by
  rw [getByte_eq_div_mod]
  simp [Nat.mod_eq_of_lt h]

theorem shiftRight24_eq_getByte (x : Nat) (h : x < 2 ^ 32) :
    x >>> 24 = getByte x 3 := by
  rw [getByte_eq_div_mod, Nat.shiftRight_eq_div_pow]
  have h2 : x / 2 ^ 24 < 256 := by omega
  norm_num
  omega

theorem testBit_xpack (a b c d j : Nat) (ha : a < 256) (hb : b < 256) (hc : c < 256) :
    (a ^^^ (b <<< 8) ^^^ (c <<< 16) ^^^ (d <<< 24)).testBit j =
      (if j < 8 then a.testBit j else if j < 16 then b.testBit (j - 8)
       else if j < 24 then c.testBit (j - 16) else d.testBit (j - 24)) := by
  simp only [Nat.testBit_xor, Nat.testBit_shiftLeft, ge_iff_le]
  rcases lt_or_ge j 8 with h8 | h8
  · rw [if_pos h8]
    simp [show ¬ (8 ≤ j) by omega, show ¬ (16 ≤ j) by omega, show ¬ (24 ≤ j) by omega]
  rcases lt_or_ge j 16 with h16 | h16
  · rw [if_neg (by omega), if_pos h16]
    simp [testBit_false_of_lt a 8 j ha (by omega), show (8 ≤ j) from h8,
      show ¬ (16 ≤ j) by omega, show ¬ (24 ≤ j) by omega]
  rcases lt_or_ge j 24 with h24 | h24
  · rw [if_neg (by omega), if_neg (by omega), if_pos h24]
    simp [testBit_false_of_lt a 8 j ha (by omega),
      testBit_false_of_lt b 8 (j - 8) hb (by omega), show (8 ≤ j) by omega,
      show (16 ≤ j) from h16, show ¬ (24 ≤ j) by omega]
  · rw [if_neg (by omega), if_neg (by omega), if_neg (by omega)]
    simp [testBit_false_of_lt a 8 j ha (by omega),
      testBit_false_of_lt b 8 (j - 8) hb (by omega),
      testBit_false_of_lt c 8 (j - 16) hc (by omega), show (8 ≤ j) by omega,
      show (16 ≤ j) by omega, show (24 ≤ j) from h24]

theorem pack_or_eq_xor (a b c d : Nat) (ha : a < 256) (hb : b < 256) (hc : c < 256) :
    a ||| (b <<< 8) ||| (c <<< 16) ||| (d <<< 24) =
      a ^^^ (b <<< 8) ^^^ (c <<< 16) ^^^ (d <<< 24) := by
  apply Nat.eq_of_testBit_eq
  intro j
  rw [testBit_pack a b c d j ha hb hc, testBit_xpack a b c d j ha hb hc]

theorem getByte_pack_0 (a b c d : Nat) (ha : a < 256) (hb : b < 256) (hc : c < 256) :
    getByte (a ||| (b <<< 8) ||| (c <<< 16) ||| (d <<< 24)) 0 = a := by
  apply Nat.eq_of_testBit_eq
  intro j
  simp only [getByte, Nat.testBit_and, Nat.testBit_shiftRight, Nat.mul_zero, Nat.zero_add]
  rw [testBit_pack a b c d j ha hb hc]
  rcases lt_or_ge j 8 with hj | hj
  · rw [if_pos hj]
    simp [show Nat.testBit 255 j = true by interval_cases j <;> decide]
  · rw [testBit_false_of_lt a 8 j ha hj,
      testBit_false_of_lt 255 8 j (by norm_num) hj]
    simp only [Bool.and_false]

theorem getByte_pack_1 (a b c d : Nat) (ha : a < 256) (hb : b < 256) (hc : c < 256) :
    getByte (a ||| (b <<< 8) ||| (c <<< 16) ||| (d <<< 24)) 1 = b := by
  apply Nat.eq_of_testBit_eq
  intro j
  simp only [getByte, Nat.testBit_and, Nat.testBit_shiftRight, Nat.mul_one]
  rw [testBit_pack a b c d (8 + j) ha hb hc]
  rcases lt_or_ge j 8 with hj | hj
  · rw [if_neg (by omega), if_pos (by omega)]
    simp [show 8 + j - 8 = j by omega,
      show Nat.testBit 255 j = true by interval_cases j <;> decide]
  · rw [testBit_false_of_lt b 8 j hb hj,
      testBit_false_of_lt 255 8 j (by norm_num) hj]
    simp only [Bool.and_false]

theorem getByte_pack_2 (a b c d : Nat) (ha : a < 256) (hb : b < 256) (hc : c < 256) :
    getByte (a ||| (b <<< 8) ||| (c <<< 16) ||| (d <<< 24)) 2 = c := by
  apply Nat.eq_of_testBit_eq
  intro j
  simp only [getByte, Nat.testBit_and, Nat.testBit_shiftRight]
  rw [show (8 : Nat) * 2 = 16 from rfl, testBit_pack a b c d (16 + j) ha hb hc]
  rcases lt_or_ge j 8 with hj | hj
  · rw [if_neg (by omega), if_neg (by omega), if_pos (by omega)]
    simp [show 16 + j - 16 = j by omega,
      show Nat.testBit 255 j = true by interval_cases j <;> decide]
  · rw [testBit_false_of_lt c 8 j hc hj,
      testBit_false_of_lt 255 8 j (by norm_num) hj]
    simp only [Bool.and_false]

theorem getByte_pack_3 (a b c d : Nat) (ha : a < 256) (hb : b < 256) (hc : c < 256)
    (hd : d < 256) :
    getByte (a ||| (b <<< 8) ||| (c <<< 16) ||| (d <<< 24)) 3 = d := by
  apply Nat.eq_of_testBit_eq
  intro j
  simp only [getByte, Nat.testBit_and, Nat.testBit_shiftRight]
  rw [show (8 : Nat) * 3 = 24 from rfl, testBit_pack a b c d (24 + j) ha hb hc]
  rw [if_neg (by omega), if_neg (by omega), if_neg (by omega)]
  rcases lt_or_ge j 8 with hj | hj
  · simp [show 24 + j - 24 = j by omega,
      show Nat.testBit 255 j = true by interval_cases j <;> decide]
  · rw [testBit_false_of_lt d 8 j hd hj,
      testBit_false_of_lt 255 8 j (by norm_num) hj]
    simp only [Bool.and_false]

theorem pack_lt (a b c d : Nat) (ha : a < 256) (hb : b < 256) (hc : c < 256)
    (hd : d < 256) :
    a ||| (b <<< 8) ||| (c <<< 16) ||| (d <<< 24) < 2 ^ 32 := by
  apply Nat.or_lt_two_pow
  apply Nat.or_lt_two_pow
  apply Nat.or_lt_two_pow
  · omega
  · rw [Nat.shiftLeft_eq]; omega
  · rw [Nat.shiftLeft_eq]; omega
  · rw [Nat.shiftLeft_eq]; omega

theorem pack_getByte (x : Nat) (h : x < 2 ^ 32) :
    getByte x 0 ||| (getByte x 1 <<< 8) ||| (getByte x 2 <<< 16) |||
      (getByte x 3 <<< 24) = x := by
  apply Nat.eq_of_testBit_eq
  intro j
  rw [testBit_pack _ _ _ _ j (getByte_lt x 0) (getByte_lt x 1) (getByte_lt x 2)]
  rcases lt_or_ge j 8 with hj | hj
  · rw [if_pos hj]
    simp only [getByte, Nat.testBit_and, Nat.testBit_shiftRight, Nat.mul_zero,
      Nat.zero_add]
    simp [show Nat.testBit 255 j = true by interval_cases j <;> decide]
  rcases lt_or_ge j 16 with hj2 | hj2
  · rw [if_neg (by omega), if_pos hj2]
    simp only [getByte, Nat.testBit_and, Nat.testBit_shiftRight, Nat.mul_one]
    simp [show 8 + (j - 8) = j by omega,
      show Nat.testBit 255 (j - 8) = true by interval_cases j <;> decide]
  rcases lt_or_ge j 24 with hj3 | hj3
  · rw [if_neg (by omega), if_neg (by omega), if_pos hj3]
    simp only [getByte, Nat.testBit_and, Nat.testBit_shiftRight]
    rw [show (8 : Nat) * 2 = 16 from rfl]
    simp [show 16 + (j - 16) = j by omega,
      show Nat.testBit 255 (j - 16) = true by interval_cases j <;> decide]
  rcases lt_or_ge j 32 with hj4 | hj4
  · rw [if_neg (by omega), if_neg (by omega), if_neg (by omega)]
    simp only [getByte, Nat.testBit_and, Nat.testBit_shiftRight]
    rw [show (8 : Nat) * 3 = 24 from rfl]
    simp [show 24 + (j - 24) = j by omega,
      show Nat.testBit 255 (j - 24) = true by interval_cases j <;> decide]
  · rw [if_neg (by omega), if_neg (by omega), if_neg (by omega),
      testBit_false_of_lt x 32 j h hj4]
    simp only [getByte, Nat.testBit_and, Nat.testBit_shiftRight]
    rw [show (8 : Nat) * 3 = 24 from rfl, show 24 + (j - 24) = j by omega,
      testBit_false_of_lt x 32 j h hj4]
    simp

theorem natOr_left_comm (a b c : Nat) : a ||| (b ||| c) = b ||| (a ||| c) := by
  rw [← Nat.or_assoc, Nat.or_comm a b, Nat.or_assoc]

theorem and255_lt (x : Nat) : x &&& 255 < 256 := by
  rw [and255_eq_mod]; omega

theorem shiftLeft_xor (a b n : Nat) : (a ^^^ b) <<< n = (a <<< n) ^^^ (b <<< n) := by
  apply Nat.eq_of_testBit_eq
  intro j
  simp [Nat.testBit_shiftLeft, Nat.testBit_xor, Bool.and_xor_distrib_left]

theorem bswap32_eq_pack (x : Nat) : bswap32 x =
    getByte x 3 ||| (getByte x 2 <<< 8) ||| (getByte x 1 <<< 16) ||| (getByte x 0 <<< 24) := by
  apply Nat.eq_of_testBit_eq
  intro j
  simp only [bswap32, Nat.testBit_or]
  rw [Bool.or_comm, Bool.or_assoc, Bool.or_assoc]
  simp [Bool.or_comm, Bool.or_left_comm, Bool.or_assoc]

theorem getByte_bswap32_0 (x : Nat) : getByte (bswap32 x) 0 = getByte x 3 := by
  rw [bswap32_eq_pack]
  exact getByte_pack_0 _ _ _ _ (getByte_lt x 3) (getByte_lt x 2) (getByte_lt x 1)

theorem getByte_bswap32_1 (x : Nat) : getByte (bswap32 x) 1 = getByte x 2 := by
  rw [bswap32_eq_pack]
  exact getByte_pack_1 _ _ _ _ (getByte_lt x 3) (getByte_lt x 2) (getByte_lt x 1)

theorem getByte_bswap32_2 (x : Nat) : getByte (bswap32 x) 2 = getByte x 1 := by
  rw [bswap32_eq_pack]
  exact getByte_pack_2 _ _ _ _ (getByte_lt x 3) (getByte_lt x 2) (getByte_lt x 1)

theorem getByte_bswap32_3 (x : Nat) : getByte (bswap32 x) 3 = getByte x 0 := by
  rw [bswap32_eq_pack]
  exact getByte_pack_3 _ _ _ _ (getByte_lt x 3) (getByte_lt x 2) (getByte_lt x 1)
    (getByte_lt x 0)

theorem bswap32_lt (x : Nat) : bswap32 x < 2 ^ 32 := by
  rw [bswap32_eq_pack]
  exact pack_lt _ _ _ _ (getByte_lt x 3) (getByte_lt x 2) (getByte_lt x 1) (getByte_lt x 0)

theorem bswap32_shiftRight24 (x : Nat) : bswap32 x >>> 24 = getByte x 0 := by
  rw [shiftRight24_eq_getByte _ (bswap32_lt x), getByte_bswap32_3]

theorem bswap32_bswap32 (x : Nat) (h : x < 2 ^ 32) : bswap32 (bswap32 x) = x := by
  rw [bswap32_eq_pack (bswap32 x), getByte_bswap32_0, getByte_bswap32_1,
    getByte_bswap32_2, getByte_bswap32_3]
  exact pack_getByte x h

theorem bswap32_xor (x y : Nat) : bswap32 (x ^^^ y) = bswap32 x ^^^ bswap32 y := by
  rw [bswap32_eq_pack, bswap32_eq_pack, bswap32_eq_pack]
  rw [pack_or_eq_xor _ _ _ _ (getByte_lt _ 3) (getByte_lt _ 2) (getByte_lt _ 1),
    pack_or_eq_xor _ _ _ _ (getByte_lt x 3) (getByte_lt x 2) (getByte_lt x 1),
    pack_or_eq_xor _ _ _ _ (getByte_lt y 3) (getByte_lt y 2) (getByte_lt y 1)]
  simp only [getByte_xor, shiftLeft_xor]
  simp [Nat.xor_assoc, Nat.xor_comm, xor_left_comm]

theorem testBit_rotr32 (x n j : Nat) (hx : x < 2 ^ 32) (hn : n ≤ 32) :
    (rotr32 x n).testBit j = if j < 32 then x.testBit ((j + n) % 32) else false := by
  simp only [rotr32, Nat.testBit_or, Nat.testBit_shiftRight, Nat.testBit_mod_two_pow,
    Nat.testBit_shiftLeft, ge_iff_le]
  rcases lt_or_ge j 32 with hj | hj
  · rw [if_pos hj]
    rcases lt_or_ge (n + j) 32 with h32 | h32
    · rw [show (j + n) % 32 = n + j by omega]
      simp [show ¬ (32 - n ≤ j) by omega, hj]
    · rw [testBit_false_of_lt x 32 (n + j) hx h32,
        show (j + n) % 32 = j - (32 - n) by omega]
      simp [show 32 - n ≤ j by omega, hj]
  · rw [if_neg (by omega), testBit_false_of_lt x 32 (n + j) hx (by omega)]
    simp [show ¬ (j < 32) by omega]

theorem rotr32_lt (x n : Nat) (hx : x < 2 ^ 32) : rotr32 x n < 2 ^ 32 := by
  apply Nat.or_lt_two_pow
  · have h1 : x >>> n ≤ x := by
      rw [Nat.shiftRight_eq_div_pow]; exact Nat.div_le_self _ _
    omega
  · exact Nat.mod_lt _ (by norm_num)

theorem rotr32_zero (x : Nat) : rotr32 x 0 = x := by
  simp only [rotr32, Nat.sub_zero, Nat.shiftRight_zero, Nat.shiftLeft_eq,
    Nat.mul_mod_left]
  simp

theorem rotr32_xor (x y n : Nat) (hx : x < 2 ^ 32) (hy : y < 2 ^ 32) (hn : n ≤ 32) :
    rotr32 (x ^^^ y) n = rotr32 x n ^^^ rotr32 y n := by
  apply Nat.eq_of_testBit_eq
  intro j
  rw [Nat.testBit_xor, testBit_rotr32 _ n j (Nat.xor_lt_two_pow hx hy) hn,
    testBit_rotr32 x n j hx hn, testBit_rotr32 y n j hy hn]
  rcases lt_or_ge j 32 with hj | hj
  · simp [hj, Nat.testBit_xor]
  · simp [show ¬ (j < 32) by omega]

theorem getByte_xpack_0 (a b c d : Nat) (ha : a < 256) (hb : b < 256) (hc : c < 256) :
    getByte (a ^^^ (b <<< 8) ^^^ (c <<< 16) ^^^ (d <<< 24)) 0 = a := by
  rw [← pack_or_eq_xor a b c d ha hb hc]
  exact getByte_pack_0 a b c d ha hb hc

theorem getByte_xpack_1 (a b c d : Nat) (ha : a < 256) (hb : b < 256) (hc : c < 256) :
    getByte (a ^^^ (b <<< 8) ^^^ (c <<< 16) ^^^ (d <<< 24)) 1 = b := by
  rw [← pack_or_eq_xor a b c d ha hb hc]
  exact getByte_pack_1 a b c d ha hb hc

theorem getByte_xpack_2 (a b c d : Nat) (ha : a < 256) (hb : b < 256) (hc : c < 256) :
    getByte (a ^^^ (b <<< 8) ^^^ (c <<< 16) ^^^ (d <<< 24)) 2 = c := by
  rw [← pack_or_eq_xor a b c d ha hb hc]
  exact getByte_pack_2 a b c d ha hb hc

theorem getByte_xpack_3 (a b c d : Nat) (ha : a < 256) (hb : b < 256) (hc : c < 256)
    (hd : d < 256) :
    getByte (a ^^^ (b <<< 8) ^^^ (c <<< 16) ^^^ (d <<< 24)) 3 = d := by
  rw [← pack_or_eq_xor a b c d ha hb hc]
  exact getByte_pack_3 a b c d ha hb hc hd

theorem xpack_lt (a b c d : Nat) (ha : a < 256) (hb : b < 256) (hc : c < 256)
    (hd : d < 256) : a ^^^ (b <<< 8) ^^^ (c <<< 16) ^^^ (d <<< 24) < 2 ^ 32 := by
  rw [← pack_or_eq_xor a b c d ha hb hc]
  exact pack_lt a b c d ha hb hc hd

theorem SeAt_lt (i : Nat) : SeAt i < 256 := and255_lt _

theorem SdAt_lt (i : Nat) : SdAt i < 256 := and255_lt _

theorem getByte_midW_0 (a b c d : Nat) : getByte (midW a b c d) 0 = SeAt (getByte a 0) :=
  getByte_xpack_0 _ _ _ _ (SeAt_lt _) (SeAt_lt _) (SeAt_lt _)

theorem getByte_midW_1 (a b c d : Nat) : getByte (midW a b c d) 1 = SeAt (getByte b 1) :=
  getByte_xpack_1 _ _ _ _ (SeAt_lt _) (SeAt_lt _) (SeAt_lt _)

theorem getByte_midW_2 (a b c d : Nat) : getByte (midW a b c d) 2 = SeAt (getByte c 2) :=
  getByte_xpack_2 _ _ _ _ (SeAt_lt _) (SeAt_lt _) (SeAt_lt _)

theorem getByte_midW_3 (a b c d : Nat) : getByte (midW a b c d) 3 = SeAt (getByte d 3) :=
  getByte_xpack_3 _ _ _ _ (SeAt_lt _) (SeAt_lt _) (SeAt_lt _) (SeAt_lt _)

theorem midW_lt (a b c d : Nat) : midW a b c d < 2 ^ 32 :=
  xpack_lt _ _ _ _ (SeAt_lt _) (SeAt_lt _) (SeAt_lt _) (SeAt_lt _)

theorem midW_shiftRight24 (a b c d : Nat) : midW a b c d >>> 24 = SeAt (getByte d 3) := by
  rw [shiftRight24_eq_getByte _ (midW_lt a b c d), getByte_midW_3]

theorem TeByte1_eq_SeAt_fin : ∀ v : Fin 256, getByte (TeAt v.val) 1 = SeAt v.val := by
  decide

theorem SdAt_SeAt_fin : ∀ v : Fin 256, SdAt (SeAt v.val) = v.val := by decide

theorem tdy_lt_fin : ∀ v : Fin 256, tdy v.val < 2 ^ 32 := by decide

theorem f2_lt_fin : ∀ v : Fin 256, f2 v.val < 256 := by decide

theorem f4_lt_fin : ∀ v : Fin 256, f4 v.val < 256 := by decide

theorem f8_lt_fin : ∀ v : Fin 256, f8 v.val < 256 := by decide

theorem FTe3_fin : ∀ c : Fin 256, Fw (TeAt (3 * 256 + c.val)) = SeAt c.val := by decide

theorem FTe2_fin : ∀ c : Fin 256, Fw (TeAt (2 * 256 + c.val)) = SeAt c.val <<< 8 := by
  decide

theorem FTe1_fin : ∀ c : Fin 256, Fw (TeAt (1 * 256 + c.val)) = SeAt c.val <<< 16 := by
  decide

theorem FTe0_fin : ∀ c : Fin 256, Fw (TeAt c.val) = SeAt c.val <<< 24 := by decide

theorem and_one_eq (x : Nat) : x &&& 1 = (x.testBit 0).toNat := by
  have h := Nat.and_two_pow x 0
  simpa using h

theorem and_two_eq (x : Nat) : x &&& 2 = (x.testBit 1).toNat * 2 := by
  have h := Nat.and_two_pow x 1
  simpa using h

theorem and_four_eq (x : Nat) : x &&& 4 = (x.testBit 2).toNat * 4 := by
  have h := Nat.and_two_pow x 2
  simpa using h

theorem f2_xor (a b : Nat) : f2 (a ^^^ b) = f2 a ^^^ f2 b := by
  simp only [f2, and_one_eq, Nat.testBit_shiftRight, shiftLeft_xor, Nat.testBit_xor]
  cases ha : a.testBit 7 <;> cases hb : b.testBit 7 <;>
    simp [Nat.xor_assoc, Nat.xor_comm, xor_left_comm, Nat.xor_self, Nat.xor_cancel_left]

theorem f4_xor (a b : Nat) : f4 (a ^^^ b) = f4 a ^^^ f4 b := by
  simp only [f4, and_one_eq, and_two_eq, Nat.testBit_shiftRight, shiftLeft_xor,
    Nat.testBit_xor]
  cases a.testBit 6 <;> cases a.testBit 7 <;> cases b.testBit 6 <;> cases b.testBit 7 <;>
    simp [Nat.xor_assoc, Nat.xor_comm, xor_left_comm, Nat.xor_self, Nat.xor_cancel_left]

theorem f8_xor (a b : Nat) : f8 (a ^^^ b) = f8 a ^^^ f8 b := by
  simp only [f8, and_one_eq, and_two_eq, and_four_eq, Nat.testBit_shiftRight,
    shiftLeft_xor, Nat.testBit_xor]
  cases a.testBit 5 <;> cases a.testBit 6 <;> cases a.testBit 7 <;>
    cases b.testBit 5 <;> cases b.testBit 6 <;> cases b.testBit 7 <;>
    simp [Nat.xor_assoc, Nat.xor_comm, xor_left_comm, Nat.xor_self, Nat.xor_cancel_left]

theorem f3_xor (a b : Nat) : f3 (a ^^^ b) = f3 a ^^^ f3 b := by
  simp only [f3, f2_xor]
  simp [Nat.xor_assoc, Nat.xor_comm, xor_left_comm]

theorem f9_xor (a b : Nat) : f9 (a ^^^ b) = f9 a ^^^ f9 b := by
  simp only [f9, f8_xor]
  simp [Nat.xor_assoc, Nat.xor_comm, xor_left_comm]

theorem fb_xor (a b : Nat) : fb (a ^^^ b) = fb a ^^^ fb b := by
  simp only [fb, f8_xor, f2_xor]
  simp [Nat.xor_assoc, Nat.xor_comm, xor_left_comm]

theorem fd_xor (a b : Nat) : fd (a ^^^ b) = fd a ^^^ fd b := by
  simp only [fd, f8_xor, f4_xor]
  simp [Nat.xor_assoc, Nat.xor_comm, xor_left_comm]

theorem fe_xor (a b : Nat) : fe (a ^^^ b) = fe a ^^^ fe b := by
  simp only [fe, f8_xor, f4_xor, f2_xor]
  simp [Nat.xor_assoc, Nat.xor_comm, xor_left_comm]

theorem xor_lt_256 (a b : Nat) (ha : a < 256) (hb : b < 256) : a ^^^ b < 256 := by
  have ha8 : a < 2 ^ 8 := by norm_num; omega
  have hb8 : b < 2 ^ 8 := by norm_num; omega
  have h : a ^^^ b < 2 ^ 8 := Nat.xor_lt_two_pow ha8 hb8
  norm_num at h
  exact h

theorem f2_lt (x : Nat) (h : x < 256) : f2 x < 256 := f2_lt_fin ⟨x, h⟩

theorem f4_lt (x : Nat) (h : x < 256) : f4 x < 256 := f4_lt_fin ⟨x, h⟩

theorem f8_lt (x : Nat) (h : x < 256) : f8 x < 256 := f8_lt_fin ⟨x, h⟩

theorem f3_lt (x : Nat) (h : x < 256) : f3 x < 256 :=
  xor_lt_256 _ _ (f2_lt x h) h

theorem f9_lt (x : Nat) (h : x < 256) : f9 x < 256 :=
  xor_lt_256 _ _ (f8_lt x h) h

theorem fb_lt (x : Nat) (h : x < 256) : fb x < 256 :=
  xor_lt_256 _ _ (xor_lt_256 _ _ (f8_lt x h) (f2_lt x h)) h

theorem fd_lt (x : Nat) (h : x < 256) : fd x < 256 :=
  xor_lt_256 _ _ (xor_lt_256 _ _ (f8_lt x h) (f4_lt x h)) h

theorem fe_lt (x : Nat) (h : x < 256) : fe x < 256 :=
  xor_lt_256 _ _ (xor_lt_256 _ _ (f8_lt x h) (f4_lt x h)) (f2_lt x h)

theorem tdy_lt (v : Nat) (h : v < 256) : tdy v < 2 ^ 32 := tdy_lt_fin ⟨v, h⟩

theorem tdy_xor (a b : Nat) (ha : a < 256) (hb : b < 256) :
    tdy (a ^^^ b) = tdy a ^^^ tdy b := by
  have hab : a ^^^ b < 256 := xor_lt_256 a b ha hb
  simp only [tdy]
  rw [pack_or_eq_xor _ _ _ _ (fb_lt _ hab) (fd_lt _ hab) (f9_lt _ hab),
    pack_or_eq_xor _ _ _ _ (fb_lt _ ha) (fd_lt _ ha) (f9_lt _ ha),
    pack_or_eq_xor _ _ _ _ (fb_lt _ hb) (fd_lt _ hb) (f9_lt _ hb)]
  simp only [fb_xor, fd_xor, f9_xor, fe_xor, shiftLeft_xor]
  simp [Nat.xor_assoc, Nat.xor_comm, xor_left_comm]

theorem Fw_xor (x y : Nat) : Fw (x ^^^ y) = Fw x ^^^ Fw y := by
  simp only [Fw, getByte_xor]
  rw [tdy_xor _ _ (getByte_lt x 0) (getByte_lt y 0),
    tdy_xor _ _ (getByte_lt x 1) (getByte_lt y 1),
    tdy_xor _ _ (getByte_lt x 2) (getByte_lt y 2),
    tdy_xor _ _ (getByte_lt x 3) (getByte_lt y 3),
    rotr32_xor _ _ _ (tdy_lt _ (getByte_lt x 0)) (tdy_lt _ (getByte_lt y 0)) (by norm_num),
    rotr32_xor _ _ _ (tdy_lt _ (getByte_lt x 1)) (tdy_lt _ (getByte_lt y 1)) (by norm_num),
    rotr32_xor _ _ _ (tdy_lt _ (getByte_lt x 2)) (tdy_lt _ (getByte_lt y 2)) (by norm_num)]
  simp [Nat.xor_assoc, Nat.xor_comm, xor_left_comm]

theorem TeWord_lt (i : Nat) : TeWord i < 2 ^ 32 :=
  pack_lt _ _ _ _ (f3_lt _ (SeAt_lt i)) (SeAt_lt i) (SeAt_lt i) (f2_lt _ (SeAt_lt i))

theorem TdWord_lt (i : Nat) : TdWord i < 2 ^ 32 := tdy_lt _ (SdAt_lt i)

theorem TeAt_lt (i : Nat) : TeAt i < 2 ^ 32 := rotr32_lt _ _ (TeWord_lt _)

theorem TdAt_lt (i : Nat) : TdAt i < 2 ^ 32 := rotr32_lt _ _ (TdWord_lt _)

theorem TeAt_index (c v : Nat) (hv : v < 256) :
    TeAt (c * 256 + v) = rotr32 (TeWord v) (8 * c) := by
  have h1 : (c * 256 + v) % 256 = v := by omega
  have h2 : (c * 256 + v) / 256 = c := by omega
  simp only [TeAt, h1, h2]

theorem TdAt_index (c v : Nat) (hv : v < 256) :
    TdAt (c * 256 + v) = rotr32 (TdWord v) (8 * c) := by
  have h1 : (c * 256 + v) % 256 = v := by omega
  have h2 : (c * 256 + v) / 256 = c := by omega
  simp only [TdAt, h1, h2]

theorem TeAt_small (v : Nat) (hv : v < 256) : TeAt v = TeWord v := by
  have h1 : v % 256 = v := Nat.mod_eq_of_lt hv
  have h2 : v / 256 = 0 := Nat.div_eq_of_lt hv
  simp only [TeAt, h1, h2, Nat.mul_zero, rotr32_zero]

theorem TdAt_small (v : Nat) (hv : v < 256) : TdAt v = TdWord v := by
  have h1 : v % 256 = v := Nat.mod_eq_of_lt hv
  have h2 : v / 256 = 0 := Nat.div_eq_of_lt hv
  simp only [TdAt, h1, h2, Nat.mul_zero, rotr32_zero]

theorem TdAt_Se_gb0 (w i : Nat) : TdAt (SeAt (getByte w i)) = tdy (getByte w i) := by
  rw [TdAt_small _ (SeAt_lt _)]
  simp only [TdWord]
  rw [SdAt_SeAt_fin ⟨getByte w i, getByte_lt w i⟩]

theorem TdAt_Se_gb1 (w i : Nat) :
    TdAt (1 * 256 + SeAt (getByte w i)) = rotr32 (tdy (getByte w i)) 8 := by
  rw [TdAt_index 1 _ (SeAt_lt _)]
  simp only [TdWord]
  rw [SdAt_SeAt_fin ⟨getByte w i, getByte_lt w i⟩]

theorem TdAt_Se_gb2 (w i : Nat) :
    TdAt (2 * 256 + SeAt (getByte w i)) = rotr32 (tdy (getByte w i)) 16 := by
  rw [TdAt_index 2 _ (SeAt_lt _)]
  simp only [TdWord]
  rw [SdAt_SeAt_fin ⟨getByte w i, getByte_lt w i⟩]

theorem TdAt_Se_gb3 (w i : Nat) :
    TdAt (3 * 256 + SeAt (getByte w i)) = rotr32 (tdy (getByte w i)) 24 := by
  rw [TdAt_index 3 _ (SeAt_lt _)]
  simp only [TdWord]
  rw [SdAt_SeAt_fin ⟨getByte w i, getByte_lt w i⟩]

theorem invMix_eq_Fw (w : Nat) : invMixColumnWord w = Fw w := by
  simp only [invMixColumnWord, Nat.zero_mul, Nat.zero_add, TdAt_Se_gb0, TdAt_Se_gb1,
    TdAt_Se_gb2, TdAt_Se_gb3, Fw]
  simp [Nat.xor_assoc, Nat.xor_comm, xor_left_comm]

theorem FTe3_gb (w i : Nat) : Fw (TeAt (3 * 256 + getByte w i)) = SeAt (getByte w i) :=
  FTe3_fin ⟨getByte w i, getByte_lt w i⟩

theorem FTe2_gb (w i : Nat) :
    Fw (TeAt (2 * 256 + getByte w i)) = SeAt (getByte w i) <<< 8 :=
  FTe2_fin ⟨getByte w i, getByte_lt w i⟩

theorem FTe1_gb (w i : Nat) :
    Fw (TeAt (1 * 256 + getByte w i)) = SeAt (getByte w i) <<< 16 :=
  FTe1_fin ⟨getByte w i, getByte_lt w i⟩

theorem FTe0_gb (w i : Nat) : Fw (TeAt (getByte w i)) = SeAt (getByte w i) <<< 24 :=
  FTe0_fin ⟨getByte w i, getByte_lt w i⟩

theorem decRound_on_M (km0 km1 km2 km3 e0 e1 e2 e3 : Nat) :
    decRound km0 km1 km2 km3 (midW e3 e2 e1 e0) (midW e0 e3 e2 e1) (midW e1 e0 e3 e2)
      (midW e2 e1 e0 e3) =
      (km0 ^^^ Fw e0, km1 ^^^ Fw e1, km2 ^^^ Fw e2, km3 ^^^ Fw e3) := by
  simp only [decRound, getByte_midW_0, getByte_midW_1, getByte_midW_2, midW_shiftRight24,
    TdAt_Se_gb0, TdAt_Se_gb1, TdAt_Se_gb2, TdAt_Se_gb3, Fw, Prod.mk.injEq]
  refine ⟨?_, ?_, ?_, ?_⟩ <;> simp [Nat.xor_assoc, Nat.xor_comm, xor_left_comm]

theorem Fw_encRound (k0 k1 k2 k3 t0 t1 t2 t3 e0 e1 e2 e3 : Nat)
    (h0 : t0 < 2 ^ 32) (h1 : t1 < 2 ^ 32) (h2 : t2 < 2 ^ 32) (h3 : t3 < 2 ^ 32)
    (he : encRound k0 k1 k2 k3 t0 t1 t2 t3 = (e0, e1, e2, e3)) :
    Fw e0 = Fw k0 ^^^ midW t3 t2 t1 t0 ∧ Fw e1 = Fw k1 ^^^ midW t0 t3 t2 t1 ∧
      Fw e2 = Fw k2 ^^^ midW t1 t0 t3 t2 ∧ Fw e3 = Fw k3 ^^^ midW t2 t1 t0 t3 := by
  simp only [encRound, Prod.mk.injEq] at he
  obtain ⟨he0, he1, he2, he3⟩ := he
  rw [shiftRight24_eq_getByte t0 h0] at he0
  rw [shiftRight24_eq_getByte t1 h1] at he1
  rw [shiftRight24_eq_getByte t2 h2] at he2
  rw [shiftRight24_eq_getByte t3 h3] at he3
  refine ⟨?_, ?_, ?_, ?_⟩
  · rw [← he0]
    simp only [Fw_xor, FTe3_gb, FTe2_gb, FTe1_gb, FTe0_gb, midW]
    simp [Nat.xor_assoc, Nat.xor_comm, xor_left_comm]
  · rw [← he1]
    simp only [Fw_xor, FTe3_gb, FTe2_gb, FTe1_gb, FTe0_gb, midW]
    simp [Nat.xor_assoc, Nat.xor_comm, xor_left_comm]
  · rw [← he2]
    simp only [Fw_xor, FTe3_gb, FTe2_gb, FTe1_gb, FTe0_gb, midW]
    simp [Nat.xor_assoc, Nat.xor_comm, xor_left_comm]
  · rw [← he3]
    simp only [Fw_xor, FTe3_gb, FTe2_gb, FTe1_gb, FTe0_gb, midW]
    simp [Nat.xor_assoc, Nat.xor_comm, xor_left_comm]

theorem xor_lt32 (a b : Nat) (ha : a < 2 ^ 32) (hb : b < 2 ^ 32) : a ^^^ b < 2 ^ 32 :=
  Nat.xor_lt_two_pow ha hb

theorem encRound_lt (k0 k1 k2 k3 t0 t1 t2 t3 : Nat) (hk0 : k0 < 2 ^ 32)
    (hk1 : k1 < 2 ^ 32) (hk2 : k2 < 2 ^ 32) (hk3 : k3 < 2 ^ 32) :
    lt4 (encRound k0 k1 k2 k3 t0 t1 t2 t3) := by
  simp only [encRound, lt4]
  refine ⟨?_, ?_, ?_, ?_⟩
  · exact xor_lt32 _ _ (xor_lt32 _ _ (xor_lt32 _ _ (xor_lt32 _ _ hk0 (TeAt_lt _))
      (TeAt_lt _)) (TeAt_lt _)) (TeAt_lt _)
  · exact xor_lt32 _ _ (xor_lt32 _ _ (xor_lt32 _ _ (xor_lt32 _ _ hk1 (TeAt_lt _))
      (TeAt_lt _)) (TeAt_lt _)) (TeAt_lt _)
  · exact xor_lt32 _ _ (xor_lt32 _ _ (xor_lt32 _ _ (xor_lt32 _ _ hk2 (TeAt_lt _))
      (TeAt_lt _)) (TeAt_lt _)) (TeAt_lt _)
  · exact xor_lt32 _ _ (xor_lt32 _ _ (xor_lt32 _ _ (xor_lt32 _ _ hk3 (TeAt_lt _))
      (TeAt_lt _)) (TeAt_lt _)) (TeAt_lt _)

theorem encRounds_lt (rk : List Nat) (hek : ∀ i, rk.getD i 0 < 2 ^ 32) :
    ∀ n off t, lt4 t → lt4 (encRounds rk n off t) := by
  intro n
  induction n with
  | zero => intro off t h; simpa [encRounds] using h
  | succ n ih =>
    intro off t h
    rcases t with ⟨t0, t1, t2, t3⟩
    simp only [encRounds]
    exact ih _ _ (encRound_lt _ _ _ _ _ _ _ _ (hek _) (hek _) (hek _) (hek _))

theorem encRounds_step (rk : List Nat) (n off t0 t1 t2 t3 : Nat) :
    encRounds rk (n + 1) off (t0, t1, t2, t3) =
      encRounds rk n (off + 4)
        (encRound (rk.getD off 0) (rk.getD (off + 1) 0) (rk.getD (off + 2) 0)
          (rk.getD (off + 3) 0) t0 t1 t2 t3) := rfl

theorem decRounds_step (rk : List Nat) (n off t0 t1 t2 t3 : Nat) :
    decRounds rk (n + 1) off (t0, t1, t2, t3) =
      decRounds rk n (off + 4)
        (decRound (rk.getD off 0) (rk.getD (off + 1) 0) (rk.getD (off + 2) 0)
          (rk.getD (off + 3) 0) t0 t1 t2 t3) := rfl

theorem encRounds_succ_last (rk : List Nat) :
    ∀ n off t s0 s1 s2 s3, encRounds rk n off t = (s0, s1, s2, s3) →
      encRounds rk (n + 1) off t =
        encRound (rk.getD (off + 4 * n) 0) (rk.getD (off + 4 * n + 1) 0)
          (rk.getD (off + 4 * n + 2) 0) (rk.getD (off + 4 * n + 3) 0) s0 s1 s2 s3 := by
  intro n
  induction n with
  | zero =>
    intro off t s0 s1 s2 s3 h
    rcases t with ⟨t0, t1, t2, t3⟩
    simp only [encRounds] at h
    simp only [Prod.mk.injEq] at h
    obtain ⟨h0, h1, h2, h3⟩ := h
    rw [encRounds_step]
    simp only [encRounds, Nat.mul_zero, Nat.add_zero]
    rw [h0, h1, h2, h3]
  | succ n ih =>
    intro off t s0 s1 s2 s3 h
    rcases t with ⟨t0, t1, t2, t3⟩
    rw [encRounds_step] at h
    rw [encRounds_step]
    have h2 := ih (off + 4) _ s0 s1 s2 s3 h
    rw [show off + 4 * (n + 1) = off + 4 + 4 * n by omega]
    exact h2

theorem decRounds_inverts (ek mk : List Nat) (R : Nat)
    (hkey : ∀ i, 4 ≤ i → i < 4 * R → mk.getD i 0 =
      invMixColumnWord (ek.getD (4 * (R - i / 4) + i % 4) 0))
    (hek : ∀ i, ek.getD i 0 < 2 ^ 32) :
    ∀ n c u, 1 ≤ c → c + n ≤ R → lt4 u →
      decRounds mk n (4 * (R - (c + n) + 1)) (M4 (encRounds ek n (4 * c) u)) = M4 u := by
  intro n
  induction n with
  | zero =>
    intro c u hc hcn hu
    simp [decRounds, encRounds]
  | succ n ih =>
    intro c u hc hcn hu
    rcases hs : encRounds ek n (4 * c) u with ⟨s0, s1, s2, s3⟩
    have hlt : lt4 (encRounds ek n (4 * c) u) := encRounds_lt ek hek n (4 * c) u hu
    rw [hs] at hlt
    obtain ⟨hs0, hs1, hs2, hs3⟩ := hlt
    rcases he : encRound (ek.getD (4 * c + 4 * n) 0) (ek.getD (4 * c + 4 * n + 1) 0)
        (ek.getD (4 * c + 4 * n + 2) 0) (ek.getD (4 * c + 4 * n + 3) 0) s0 s1 s2 s3 with
      ⟨e0, e1, e2, e3⟩
    have hsucc := encRounds_succ_last ek n (4 * c) u s0 s1 s2 s3 hs
    rw [hsucc, he]
    have hoff : 4 * (R - (c + (n + 1)) + 1) = 4 * (R - c - n) := by omega
    rw [hoff]
    simp only [M4, decRounds]
    have hk0 : mk.getD (4 * (R - c - n)) 0 =
        invMixColumnWord (ek.getD (4 * c + 4 * n) 0) := by
      have h := hkey (4 * (R - c - n)) (by omega) (by omega)
      have hiq : 4 * (R - 4 * (R - c - n) / 4) + 4 * (R - c - n) % 4 =
          4 * c + 4 * n := by omega
      rw [h, hiq]
    have hk1 : mk.getD (4 * (R - c - n) + 1) 0 =
        invMixColumnWord (ek.getD (4 * c + 4 * n + 1) 0) := by
      have h := hkey (4 * (R - c - n) + 1) (by omega) (by omega)
      have hiq : 4 * (R - (4 * (R - c - n) + 1) / 4) + (4 * (R - c - n) + 1) % 4 =
          4 * c + 4 * n + 1 := by omega
      rw [h, hiq]
    have hk2 : mk.getD (4 * (R - c - n) + 2) 0 =
        invMixColumnWord (ek.getD (4 * c + 4 * n + 2) 0) := by
      have h := hkey (4 * (R - c - n) + 2) (by omega) (by omega)
      have hiq : 4 * (R - (4 * (R - c - n) + 2) / 4) + (4 * (R - c - n) + 2) % 4 =
          4 * c + 4 * n + 2 := by omega
      rw [h, hiq]
    have hk3 : mk.getD (4 * (R - c - n) + 3) 0 =
        invMixColumnWord (ek.getD (4 * c + 4 * n + 3) 0) := by
      have h := hkey (4 * (R - c - n) + 3) (by omega) (by omega)
      have hiq : 4 * (R - (4 * (R - c - n) + 3) / 4) + (4 * (R - c - n) + 3) % 4 =
          4 * c + 4 * n + 3 := by omega
      rw [h, hiq]
    rw [hk0, hk1, hk2, hk3, decRound_on_M]
    obtain ⟨f0, f1, f2, f3⟩ := Fw_encRound _ _ _ _ _ _ _ _ _ _ _ _ hs0 hs1 hs2 hs3 he
    rw [f0, f1, f2, f3, invMix_eq_Fw, invMix_eq_Fw, invMix_eq_Fw, invMix_eq_Fw]
    simp only [Nat.xor_cancel_left]
    have ih2 := ih c u hc (by omega) hu
    rw [hs] at ih2
    simp only [M4] at ih2
    have hoff2 : 4 * (R - (c + n) + 1) = 4 * (R - c - n) + 4 := by omega
    rw [hoff2] at ih2
    exact ih2

theorem TeAt_gb_small (w i : Nat) : TeAt (getByte w i) = TeWord (getByte w i) :=
  TeAt_small _ (getByte_lt w i)

theorem TeAt_gb1 (w i : Nat) :
    TeAt (1 * 256 + getByte w i) = rotr32 (TeWord (getByte w i)) 8 := by
  rw [TeAt_index 1 _ (getByte_lt w i)]

theorem TeAt_gb2 (w i : Nat) :
    TeAt (2 * 256 + getByte w i) = rotr32 (TeWord (getByte w i)) 16 := by
  rw [TeAt_index 2 _ (getByte_lt w i)]

theorem TeAt_gb3 (w i : Nat) :
    TeAt (3 * 256 + getByte w i) = rotr32 (TeWord (getByte w i)) 24 := by
  rw [TeAt_index 3 _ (getByte_lt w i)]

theorem TdAt_gb_small (w i : Nat) : TdAt (getByte w i) = TdWord (getByte w i) :=
  TdAt_small _ (getByte_lt w i)

theorem TdAt_gb1 (w i : Nat) :
    TdAt (1 * 256 + getByte w i) = rotr32 (TdWord (getByte w i)) 8 := by
  rw [TdAt_index 1 _ (getByte_lt w i)]

theorem TdAt_gb2 (w i : Nat) :
    TdAt (2 * 256 + getByte w i) = rotr32 (TdWord (getByte w i)) 16 := by
  rw [TdAt_index 2 _ (getByte_lt w i)]

theorem TdAt_gb3 (w i : Nat) :
    TdAt (3 * 256 + getByte w i) = rotr32 (TdWord (getByte w i)) 24 := by
  rw [TdAt_index 3 _ (getByte_lt w i)]

theorem encFirstRound_eq (t0 t1 t2 t3 s0 s1 s2 s3 : Nat) (h0 : s0 < 2 ^ 32)
    (h1 : s1 < 2 ^ 32) (h2 : s2 < 2 ^ 32) (h3 : s3 < 2 ^ 32) :
    encFirstRound t0 t1 t2 t3 s0 s1 s2 s3 =
      encRound t0 t1 t2 t3 (bswap32 s0) (bswap32 s1) (bswap32 s2) (bswap32 s3) := by
  simp only [encFirstRound, encRound]
  rw [shiftRight24_eq_getByte s0 h0, shiftRight24_eq_getByte s1 h1,
    shiftRight24_eq_getByte s2 h2, shiftRight24_eq_getByte s3 h3]
  simp only [getByte_bswap32_0, getByte_bswap32_1, getByte_bswap32_2,
    bswap32_shiftRight24, rotr32_zero, TeAt_gb_small, TeAt_gb1, TeAt_gb2, TeAt_gb3,
    Prod.mk.injEq]

theorem decFirstRound_eq (t0 t1 t2 t3 s0 s1 s2 s3 : Nat) (h0 : s0 < 2 ^ 32)
    (h1 : s1 < 2 ^ 32) (h2 : s2 < 2 ^ 32) (h3 : s3 < 2 ^ 32) :
    decFirstRound t0 t1 t2 t3 s0 s1 s2 s3 =
      decRound t0 t1 t2 t3 (bswap32 s0) (bswap32 s1) (bswap32 s2) (bswap32 s3) := by
  simp only [decFirstRound, decRound]
  rw [shiftRight24_eq_getByte s0 h0, shiftRight24_eq_getByte s1 h1,
    shiftRight24_eq_getByte s2 h2, shiftRight24_eq_getByte s3 h3]
  simp only [getByte_bswap32_0, getByte_bswap32_1, getByte_bswap32_2,
    bswap32_shiftRight24, rotr32_zero, TdAt_gb_small, TdAt_gb1, TdAt_gb2, TdAt_gb3,
    Prod.mk.injEq]

theorem encLoop_eq (rk : List Nat) :
    ∀ r off t, encLoop rk r off t = encRounds rk (2 * r) off t := by
  intro r
  induction r with
  | zero => intro off t; simp [encLoop, encRounds]
  | succ r ih =>
    intro off t
    rcases t with ⟨t0, t1, t2, t3⟩
    rcases h1 : encRound (rk.getD off 0) (rk.getD (off + 1) 0) (rk.getD (off + 2) 0)
        (rk.getD (off + 3) 0) t0 t1 t2 t3 with ⟨a0, a1, a2, a3⟩
    rw [show 2 * (r + 1) = 2 * r + 1 + 1 by omega, encRounds_step, h1, encRounds_step]
    simp only [encLoop]
    rw [h1, ih (off + 8)]

theorem decLoop_eq (rk : List Nat) :
    ∀ r off t, decLoop rk r off t = decRounds rk (2 * r) off t := by
  intro r
  induction r with
  | zero => intro off t; simp [decLoop, decRounds]
  | succ r ih =>
    intro off t
    rcases t with ⟨t0, t1, t2, t3⟩
    rcases h1 : decRound (rk.getD off 0) (rk.getD (off + 1) 0) (rk.getD (off + 2) 0)
        (rk.getD (off + 3) 0) t0 t1 t2 t3 with ⟨a0, a1, a2, a3⟩
    rw [show 2 * (r + 1) = 2 * r + 1 + 1 by omega, decRounds_step, h1, decRounds_step]
    simp only [decLoop]
    rw [h1, ih (off + 8)]

theorem encRounds_add (rk : List Nat) :
    ∀ n m off t, encRounds rk m (off + 4 * n) (encRounds rk n off t) =
      encRounds rk (n + m) off t := by
  intro n
  induction n with
  | zero => intro m off t; simp [encRounds]
  | succ n ih =>
    intro m off t
    rcases t with ⟨t0, t1, t2, t3⟩
    rw [encRounds_step, show off + 4 * (n + 1) = off + 4 + 4 * n by omega, ih m (off + 4)]
    rw [show n + 1 + m = n + m + 1 by omega, encRounds_step]

theorem decRounds_add (rk : List Nat) :
    ∀ n m off t, decRounds rk m (off + 4 * n) (decRounds rk n off t) =
      decRounds rk (n + m) off t := by
  intro n
  induction n with
  | zero => intro m off t; simp [decRounds]
  | succ n ih =>
    intro m off t
    rcases t with ⟨t0, t1, t2, t3⟩
    rw [decRounds_step, show off + 4 * (n + 1) = off + 4 + 4 * n by omega, ih m (off + 4)]
    rw [show n + 1 + m = n + m + 1 by omega, decRounds_step]

theorem encLast_eq_W (rk : List Nat) (off t0 t1 t2 t3 : Nat) :
    encLast rk off t0 t1 t2 t3 = encLastW (rk.getD off 0) (rk.getD (off + 1) 0)
      (rk.getD (off + 2) 0) (rk.getD (off + 3) 0) t0 t1 t2 t3 := rfl

theorem decLast_eq_W (rk : List Nat) (off t0 t1 t2 t3 : Nat) :
    decLast rk off t0 t1 t2 t3 = decLastW (rk.getD off 0) (rk.getD (off + 1) 0)
      (rk.getD (off + 2) 0) (rk.getD (off + 3) 0) t0 t1 t2 t3 := rfl

theorem leWord_list16_0 (a0 a1 a2 a3 a4 a5 a6 a7 a8 a9 a10 a11 a12 a13 a14 a15 : Nat) :
    leWord [a0, a1, a2, a3, a4, a5, a6, a7, a8, a9, a10, a11, a12, a13, a14, a15] 0 =
      a0 ||| (a1 <<< 8) ||| (a2 <<< 16) ||| (a3 <<< 24) := rfl

theorem leWord_list16_1 (a0 a1 a2 a3 a4 a5 a6 a7 a8 a9 a10 a11 a12 a13 a14 a15 : Nat) :
    leWord [a0, a1, a2, a3, a4, a5, a6, a7, a8, a9, a10, a11, a12, a13, a14, a15] 1 =
      a4 ||| (a5 <<< 8) ||| (a6 <<< 16) ||| (a7 <<< 24) := rfl

theorem leWord_list16_2 (a0 a1 a2 a3 a4 a5 a6 a7 a8 a9 a10 a11 a12 a13 a14 a15 : Nat) :
    leWord [a0, a1, a2, a3, a4, a5, a6, a7, a8, a9, a10, a11, a12, a13, a14, a15] 2 =
      a8 ||| (a9 <<< 8) ||| (a10 <<< 16) ||| (a11 <<< 24) := rfl

theorem leWord_list16_3 (a0 a1 a2 a3 a4 a5 a6 a7 a8 a9 a10 a11 a12 a13 a14 a15 : Nat) :
    leWord [a0, a1, a2, a3, a4, a5, a6, a7, a8, a9, a10, a11, a12, a13, a14, a15] 3 =
      a12 ||| (a13 <<< 8) ||| (a14 <<< 16) ||| (a15 <<< 24) := rfl

theorem TeByte1_lt (x : Nat) : TeByte1 x < 256 := getByte_lt _ _

theorem TeByte1_gb (w i : Nat) : TeByte1 (getByte w i) = SeAt (getByte w i) :=
  TeByte1_eq_SeAt_fin ⟨getByte w i, getByte_lt w i⟩

theorem SdAt_Se_gb (w i : Nat) : SdAt (SeAt (getByte w i)) = getByte w i :=
  SdAt_SeAt_fin ⟨getByte w i, getByte_lt w i⟩

theorem bswap32_pack (a b c d : Nat) (ha : a < 256) (hb : b < 256) (hc : c < 256)
    (hd : d < 256) :
    bswap32 (a ||| (b <<< 8) ||| (c <<< 16) ||| (d <<< 24)) =
      d ||| (c <<< 8) ||| (b <<< 16) ||| (a <<< 24) := by
  rw [bswap32_eq_pack, getByte_pack_0 a b c d ha hb hc, getByte_pack_1 a b c d ha hb hc,
    getByte_pack_2 a b c d ha hb hc, getByte_pack_3 a b c d ha hb hc hd]

theorem xor_cancel_right (a b : Nat) : a ^^^ b ^^^ b = a := by
  rw [Nat.xor_assoc, Nat.xor_self, Nat.xor_zero]

theorem leWord_encLastW_0 (K0 K1 K2 K3 t0 t1 t2 t3 : Nat) (hK : K0 < 2 ^ 32) :
    leWord (encLastW K0 K1 K2 K3 t0 t1 t2 t3) 0 =
      (TeByte1 (t0 >>> 24) ||| (TeByte1 (getByte t1 2) <<< 8) |||
        (TeByte1 (getByte t2 1) <<< 16) ||| (TeByte1 (getByte t3 0) <<< 24)) ^^^ K0 := by
  simp only [encLastW, leWord_list16_0]
  rw [pack_getByte]
  exact xor_lt32 _ _ (pack_lt _ _ _ _ (TeByte1_lt _) (TeByte1_lt _) (TeByte1_lt _)
    (TeByte1_lt _)) hK

theorem leWord_encLastW_1 (K0 K1 K2 K3 t0 t1 t2 t3 : Nat) (hK : K1 < 2 ^ 32) :
    leWord (encLastW K0 K1 K2 K3 t0 t1 t2 t3) 1 =
      (TeByte1 (t1 >>> 24) ||| (TeByte1 (getByte t2 2) <<< 8) |||
        (TeByte1 (getByte t3 1) <<< 16) ||| (TeByte1 (getByte t0 0) <<< 24)) ^^^ K1 := by
  simp only [encLastW, leWord_list16_1]
  rw [pack_getByte]
  exact xor_lt32 _ _ (pack_lt _ _ _ _ (TeByte1_lt _) (TeByte1_lt _) (TeByte1_lt _)
    (TeByte1_lt _)) hK

theorem leWord_encLastW_2 (K0 K1 K2 K3 t0 t1 t2 t3 : Nat) (hK : K2 < 2 ^ 32) :
    leWord (encLastW K0 K1 K2 K3 t0 t1 t2 t3) 2 =
      (TeByte1 (t2 >>> 24) ||| (TeByte1 (getByte t3 2) <<< 8) |||
        (TeByte1 (getByte t0 1) <<< 16) ||| (TeByte1 (getByte t1 0) <<< 24)) ^^^ K2 := by
  simp only [encLastW, leWord_list16_2]
  rw [pack_getByte]
  exact xor_lt32 _ _ (pack_lt _ _ _ _ (TeByte1_lt _) (TeByte1_lt _) (TeByte1_lt _)
    (TeByte1_lt _)) hK

theorem leWord_encLastW_3 (K0 K1 K2 K3 t0 t1 t2 t3 : Nat) (hK : K3 < 2 ^ 32) :
    leWord (encLastW K0 K1 K2 K3 t0 t1 t2 t3) 3 =
      (TeByte1 (t3 >>> 24) ||| (TeByte1 (getByte t0 2) <<< 8) |||
        (TeByte1 (getByte t1 1) <<< 16) ||| (TeByte1 (getByte t2 0) <<< 24)) ^^^ K3 := by
  simp only [encLastW, leWord_list16_3]
  rw [pack_getByte]
  exact xor_lt32 _ _ (pack_lt _ _ _ _ (TeByte1_lt _) (TeByte1_lt _) (TeByte1_lt _)
    (TeByte1_lt _)) hK

theorem endA_0 (k0 k1 k2 k3 t0 t1 t2 t3 : Nat) (h0 : t0 < 2 ^ 32) :
    bswap32 (leWord (encLastW (bswap32 k0) (bswap32 k1) (bswap32 k2) (bswap32 k3)
      t0 t1 t2 t3) 0 ^^^ bswap32 k0) = midW t3 t2 t1 t0 := by
  rw [leWord_encLastW_0 _ _ _ _ _ _ _ _ (bswap32_lt k0), xor_cancel_right,
    shiftRight24_eq_getByte t0 h0]
  simp only [TeByte1_gb]
  rw [bswap32_pack _ _ _ _ (SeAt_lt _) (SeAt_lt _) (SeAt_lt _) (SeAt_lt _),
    pack_or_eq_xor _ _ _ _ (SeAt_lt _) (SeAt_lt _) (SeAt_lt _)]
  rfl

theorem endA_1 (k0 k1 k2 k3 t0 t1 t2 t3 : Nat) (h1 : t1 < 2 ^ 32) :
    bswap32 (leWord (encLastW (bswap32 k0) (bswap32 k1) (bswap32 k2) (bswap32 k3)
      t0 t1 t2 t3) 1 ^^^ bswap32 k1) = midW t0 t3 t2 t1 := by
  rw [leWord_encLastW_1 _ _ _ _ _ _ _ _ (bswap32_lt k1), xor_cancel_right,
    shiftRight24_eq_getByte t1 h1]
  simp only [TeByte1_gb]
  rw [bswap32_pack _ _ _ _ (SeAt_lt _) (SeAt_lt _) (SeAt_lt _) (SeAt_lt _),
    pack_or_eq_xor _ _ _ _ (SeAt_lt _) (SeAt_lt _) (SeAt_lt _)]
  rfl

theorem endA_2 (k0 k1 k2 k3 t0 t1 t2 t3 : Nat) (h2 : t2 < 2 ^ 32) :
    bswap32 (leWord (encLastW (bswap32 k0) (bswap32 k1) (bswap32 k2) (bswap32 k3)
      t0 t1 t2 t3) 2 ^^^ bswap32 k2) = midW t1 t0 t3 t2 := by
  rw [leWord_encLastW_2 _ _ _ _ _ _ _ _ (bswap32_lt k2), xor_cancel_right,
    shiftRight24_eq_getByte t2 h2]
  simp only [TeByte1_gb]
  rw [bswap32_pack _ _ _ _ (SeAt_lt _) (SeAt_lt _) (SeAt_lt _) (SeAt_lt _),
    pack_or_eq_xor _ _ _ _ (SeAt_lt _) (SeAt_lt _) (SeAt_lt _)]
  rfl

theorem endA_3 (k0 k1 k2 k3 t0 t1 t2 t3 : Nat) (h3 : t3 < 2 ^ 32) :
    bswap32 (leWord (encLastW (bswap32 k0) (bswap32 k1) (bswap32 k2) (bswap32 k3)
      t0 t1 t2 t3) 3 ^^^ bswap32 k3) = midW t2 t1 t0 t3 := by
  rw [leWord_encLastW_3 _ _ _ _ _ _ _ _ (bswap32_lt k3), xor_cancel_right,
    shiftRight24_eq_getByte t3 h3]
  simp only [TeByte1_gb]
  rw [bswap32_pack _ _ _ _ (SeAt_lt _) (SeAt_lt _) (SeAt_lt _) (SeAt_lt _),
    pack_or_eq_xor _ _ _ _ (SeAt_lt _) (SeAt_lt _) (SeAt_lt _)]
  rfl

theorem pack_xor_split (a0 a1 a2 a3 b0 b1 b2 b3 : Nat) (ha0 : a0 < 256) (ha1 : a1 < 256)
    (ha2 : a2 < 256) (ha3 : a3 < 256) (hb0 : b0 < 256) (hb1 : b1 < 256) (hb2 : b2 < 256)
    (hb3 : b3 < 256) :
    (a0 ^^^ b0) ||| ((a1 ^^^ b1) <<< 8) ||| ((a2 ^^^ b2) <<< 16) ||| ((a3 ^^^ b3) <<< 24) =
      (a0 ||| (a1 <<< 8) ||| (a2 <<< 16) ||| (a3 <<< 24)) ^^^
        (b0 ||| (b1 <<< 8) ||| (b2 <<< 16) ||| (b3 <<< 24)) := by
  rw [pack_or_eq_xor _ _ _ _ (xor_lt_256 _ _ ha0 hb0) (xor_lt_256 _ _ ha1 hb1)
      (xor_lt_256 _ _ ha2 hb2),
    pack_or_eq_xor _ _ _ _ ha0 ha1 ha2, pack_or_eq_xor _ _ _ _ hb0 hb1 hb2]
  simp only [shiftLeft_xor]
  simp [Nat.xor_assoc, Nat.xor_comm, xor_left_comm]

theorem endB (m0 m1 m2 m3 p0 p1 p2 p3 p4 p5 p6 p7 p8 p9 p10 p11 p12 p13 p14 p15 : Nat)
    (hp0 : p0 < 256) (hp1 : p1 < 256) (hp2 : p2 < 256) (hp3 : p3 < 256)
    (hp4 : p4 < 256) (hp5 : p5 < 256) (hp6 : p6 < 256) (hp7 : p7 < 256)
    (hp8 : p8 < 256) (hp9 : p9 < 256) (hp10 : p10 < 256) (hp11 : p11 < 256)
    (hp12 : p12 < 256) (hp13 : p13 < 256) (hp14 : p14 < 256) (hp15 : p15 < 256) :
    decLastW (bswap32 m0) (bswap32 m1) (bswap32 m2) (bswap32 m3)
      (midW (bswap32 ((p12 ||| (p13 <<< 8) ||| (p14 <<< 16) ||| (p15 <<< 24)) ^^^ bswap32 m3))
        (bswap32 ((p8 ||| (p9 <<< 8) ||| (p10 <<< 16) ||| (p11 <<< 24)) ^^^ bswap32 m2))
        (bswap32 ((p4 ||| (p5 <<< 8) ||| (p6 <<< 16) ||| (p7 <<< 24)) ^^^ bswap32 m1))
        (bswap32 ((p0 ||| (p1 <<< 8) ||| (p2 <<< 16) ||| (p3 <<< 24)) ^^^ bswap32 m0)))
      (midW (bswap32 ((p0 ||| (p1 <<< 8) ||| (p2 <<< 16) ||| (p3 <<< 24)) ^^^ bswap32 m0))
        (bswap32 ((p12 ||| (p13 <<< 8) ||| (p14 <<< 16) ||| (p15 <<< 24)) ^^^ bswap32 m3))
        (bswap32 ((p8 ||| (p9 <<< 8) ||| (p10 <<< 16) ||| (p11 <<< 24)) ^^^ bswap32 m2))
        (bswap32 ((p4 ||| (p5 <<< 8) ||| (p6 <<< 16) ||| (p7 <<< 24)) ^^^ bswap32 m1)))
      (midW (bswap32 ((p4 ||| (p5 <<< 8) ||| (p6 <<< 16) ||| (p7 <<< 24)) ^^^ bswap32 m1))
        (bswap32 ((p0 ||| (p1 <<< 8) ||| (p2 <<< 16) ||| (p3 <<< 24)) ^^^ bswap32 m0))
        (bswap32 ((p12 ||| (p13 <<< 8) ||| (p14 <<< 16) ||| (p15 <<< 24)) ^^^ bswap32 m3))
        (bswap32 ((p8 ||| (p9 <<< 8) ||| (p10 <<< 16) ||| (p11 <<< 24)) ^^^ bswap32 m2)))
      (midW (bswap32 ((p8 ||| (p9 <<< 8) ||| (p10 <<< 16) ||| (p11 <<< 24)) ^^^ bswap32 m2))
        (bswap32 ((p4 ||| (p5 <<< 8) ||| (p6 <<< 16) ||| (p7 <<< 24)) ^^^ bswap32 m1))
        (bswap32 ((p0 ||| (p1 <<< 8) ||| (p2 <<< 16) ||| (p3 <<< 24)) ^^^ bswap32 m0))
        (bswap32 ((p12 ||| (p13 <<< 8) ||| (p14 <<< 16) ||| (p15 <<< 24)) ^^^ bswap32 m3))) =
      [p0, p1, p2, p3, p4, p5, p6, p7, p8, p9, p10, p11, p12, p13, p14, p15] := by
  have g0 : getByte (p0 ||| (p1 <<< 8) ||| (p2 <<< 16) ||| (p3 <<< 24)) 0 = p0 :=
    getByte_pack_0 _ _ _ _ hp0 hp1 hp2
  have g1 : getByte (p0 ||| (p1 <<< 8) ||| (p2 <<< 16) ||| (p3 <<< 24)) 1 = p1 :=
    getByte_pack_1 _ _ _ _ hp0 hp1 hp2
  have g2 : getByte (p0 ||| (p1 <<< 8) ||| (p2 <<< 16) ||| (p3 <<< 24)) 2 = p2 :=
    getByte_pack_2 _ _ _ _ hp0 hp1 hp2
  have g3 : getByte (p0 ||| (p1 <<< 8) ||| (p2 <<< 16) ||| (p3 <<< 24)) 3 = p3 :=
    getByte_pack_3 _ _ _ _ hp0 hp1 hp2 hp3
  have g4 : getByte (p4 ||| (p5 <<< 8) ||| (p6 <<< 16) ||| (p7 <<< 24)) 0 = p4 :=
    getByte_pack_0 _ _ _ _ hp4 hp5 hp6
  have g5 : getByte (p4 ||| (p5 <<< 8) ||| (p6 <<< 16) ||| (p7 <<< 24)) 1 = p5 :=
    getByte_pack_1 _ _ _ _ hp4 hp5 hp6
  have g6 : getByte (p4 ||| (p5 <<< 8) ||| (p6 <<< 16) ||| (p7 <<< 24)) 2 = p6 :=
    getByte_pack_2 _ _ _ _ hp4 hp5 hp6
  have g7 : getByte (p4 ||| (p5 <<< 8) ||| (p6 <<< 16) ||| (p7 <<< 24)) 3 = p7 :=
    getByte_pack_3 _ _ _ _ hp4 hp5 hp6 hp7
  have g8 : getByte (p8 ||| (p9 <<< 8) ||| (p10 <<< 16) ||| (p11 <<< 24)) 0 = p8 :=
    getByte_pack_0 _ _ _ _ hp8 hp9 hp10
  have g9 : getByte (p8 ||| (p9 <<< 8) ||| (p10 <<< 16) ||| (p11 <<< 24)) 1 = p9 :=
    getByte_pack_1 _ _ _ _ hp8 hp9 hp10
  have g10 : getByte (p8 ||| (p9 <<< 8) ||| (p10 <<< 16) ||| (p11 <<< 24)) 2 = p10 :=
    getByte_pack_2 _ _ _ _ hp8 hp9 hp10
  have g11 : getByte (p8 ||| (p9 <<< 8) ||| (p10 <<< 16) ||| (p11 <<< 24)) 3 = p11 :=
    getByte_pack_3 _ _ _ _ hp8 hp9 hp10 hp11
  have g12 : getByte (p12 ||| (p13 <<< 8) ||| (p14 <<< 16) ||| (p15 <<< 24)) 0 = p12 :=
    getByte_pack_0 _ _ _ _ hp12 hp13 hp14
  have g13 : getByte (p12 ||| (p13 <<< 8) ||| (p14 <<< 16) ||| (p15 <<< 24)) 1 = p13 :=
    getByte_pack_1 _ _ _ _ hp12 hp13 hp14
  have g14 : getByte (p12 ||| (p13 <<< 8) ||| (p14 <<< 16) ||| (p15 <<< 24)) 2 = p14 :=
    getByte_pack_2 _ _ _ _ hp12 hp13 hp14
  have g15 : getByte (p12 ||| (p13 <<< 8) ||| (p14 <<< 16) ||| (p15 <<< 24)) 3 = p15 :=
    getByte_pack_3 _ _ _ _ hp12 hp13 hp14 hp15
  simp only [decLastW, getByte_midW_0, getByte_midW_1, getByte_midW_2, midW_shiftRight24,
    SdAt_Se_gb]
  simp only [getByte_bswap32_0, getByte_bswap32_1, getByte_bswap32_2, getByte_bswap32_3,
    getByte_xor, g0, g1, g2, g3, g4, g5, g6, g7, g8, g9, g10, g11, g12, g13, g14, g15]
  rw [pack_xor_split _ _ _ _ _ _ _ _ hp0 hp1 hp2 hp3 (getByte_lt m0 3) (getByte_lt m0 2)
      (getByte_lt m0 1) (getByte_lt m0 0),
    pack_xor_split _ _ _ _ _ _ _ _ hp4 hp5 hp6 hp7 (getByte_lt m1 3) (getByte_lt m1 2)
      (getByte_lt m1 1) (getByte_lt m1 0),
    pack_xor_split _ _ _ _ _ _ _ _ hp8 hp9 hp10 hp11 (getByte_lt m2 3) (getByte_lt m2 2)
      (getByte_lt m2 1) (getByte_lt m2 0),
    pack_xor_split _ _ _ _ _ _ _ _ hp12 hp13 hp14 hp15 (getByte_lt m3 3) (getByte_lt m3 2)
      (getByte_lt m3 1) (getByte_lt m3 0),
    ← bswap32_eq_pack m0, ← bswap32_eq_pack m1, ← bswap32_eq_pack m2, ← bswap32_eq_pack m3]
  simp only [getByte_xor, getByte_bswap32_0, getByte_bswap32_1, getByte_bswap32_2,
    getByte_bswap32_3, g0, g1, g2, g3, g4, g5, g6, g7, g8, g9, g10, g11, g12, g13, g14,
    g15, xor_cancel_right]

theorem getD_set (l : List Nat) (m a i : Nat) :
    (l.set m a).getD i 0 = if m = i ∧ m < l.length then a else l.getD i 0 := by
  rw [List.getD_eq_getElem?_getD, List.getElem?_set]
  by_cases h1 : m = i
  · subst h1
    by_cases h2 : m < l.length
    · simp [h2]
    · simp [h2, List.getD_eq_getElem?_getD, List.getElem?_eq_none (by omega : l.length ≤ m)]
  · simp [h1, List.getD_eq_getElem?_getD]

theorem rangeMap_getD (f : Nat → Nat) (n i : Nat) (h : i < n) :
    ((List.range n).map f).getD i 0 = f i := by
  rw [List.getD_eq_getElem?_getD, List.getElem?_map, List.getElem?_range h]
  rfl

theorem SeAt_lt32 (i : Nat) : SeAt i < 2 ^ 32 := by
  have h := SeAt_lt i
  omega

theorem shlSe24_lt (i : Nat) : SeAt i <<< 24 < 2 ^ 32 := by
  have h := SeAt_lt i
  rw [Nat.shiftLeft_eq]
  omega

theorem shlSe16_lt (i : Nat) : SeAt i <<< 16 < 2 ^ 32 := by
  have h := SeAt_lt i
  rw [Nat.shiftLeft_eq]
  omega

theorem shlSe8_lt (i : Nat) : SeAt i <<< 8 < 2 ^ 32 := by
  have h := SeAt_lt i
  rw [Nat.shiftLeft_eq]
  omega

theorem rconAt_lt (i : Nat) : rconAt i < 2 ^ 32 := by
  have h : rconN >>> (32 * i) &&& 4294967295 = rconN >>> (32 * i) % 2 ^ 32 := by
    rw [show (4294967295 : Nat) = 2 ^ 32 - 1 by norm_num,
      Nat.and_pow_two_sub_one_eq_mod]
  simp only [rconAt]
  rw [h]
  exact Nat.mod_lt _ (by norm_num)

theorem getD_set_lt1 (l : List Nat) (m a : Nat) (ha : a < 2 ^ 32)
    (h : ∀ i, l.getD i 0 < 2 ^ 32) : ∀ i, (l.set m a).getD i 0 < 2 ^ 32 := by
  intro i
  rw [getD_set]
  split_ifs with hc
  · exact ha
  · exact h i

theorem getD_set_lt2 (l : List Nat) (m a i : Nat) (ha : a < 2 ^ 32)
    (h : ∀ j, l.getD j 0 < 2 ^ 32) : (l.set m a).getD i 0 < 2 ^ 32 :=
  getD_set_lt1 l m a ha h i

theorem val1_lt (x t rc : Nat) (hx : x < 2 ^ 32) :
    x ^^^ (SeAt (getByte t 2) <<< 24) ^^^ (SeAt (getByte t 1) <<< 16) ^^^
      (SeAt (getByte t 0) <<< 8) ^^^ SeAt (getByte t 3) ^^^ rconAt rc < 2 ^ 32 :=
  xor_lt32 _ _ (xor_lt32 _ _ (xor_lt32 _ _ (xor_lt32 _ _ (xor_lt32 _ _ hx
    (shlSe24_lt _)) (shlSe16_lt _)) (shlSe8_lt _)) (SeAt_lt32 _)) (rconAt_lt _)

theorem val32_lt (x t : Nat) (hx : x < 2 ^ 32) :
    x ^^^ (SeAt (getByte t 3) <<< 24) ^^^ (SeAt (getByte t 2) <<< 16) ^^^
      (SeAt (getByte t 1) <<< 8) ^^^ SeAt (getByte t 0) < 2 ^ 32 :=
  xor_lt32 _ _ (xor_lt32 _ _ (xor_lt32 _ _ (xor_lt32 _ _ hx (shlSe24_lt _))
    (shlSe16_lt _)) (shlSe8_lt _)) (SeAt_lt32 _)

theorem keyExpandIter_lt (keylen rcIdx off : Nat) (rk : List Nat)
    (h : ∀ i, rk.getD i 0 < 2 ^ 32) :
    ∀ i, (keyExpandIter keylen rcIdx off rk).getD i 0 < 2 ^ 32 := by
  simp only [keyExpandIter]
  have H1 := getD_set_lt1 _ (off + keylen / 4) _
    (val1_lt _ (rk.getD (off + keylen / 4 - 1) 0) rcIdx (h off)) h
  have H2 := getD_set_lt1 _ (off + keylen / 4 + 1) _
    (xor_lt32 _ _ (H1 (off + 1)) (H1 (off + keylen / 4))) H1
  have H3 := getD_set_lt1 _ (off + keylen / 4 + 2) _
    (xor_lt32 _ _ (H2 (off + 2)) (H2 (off + keylen / 4 + 1))) H2
  exact getD_set_lt1 _ (off + keylen / 4 + 3) _
    (xor_lt32 _ _ (H3 (off + 3)) (H3 (off + keylen / 4 + 2))) H3

theorem keyExpandLoop_lt (keylen : Nat) :
    ∀ fuel rcIdx off rk, (∀ i, rk.getD i 0 < 2 ^ 32) →
      ∀ i, (keyExpandLoop keylen fuel rcIdx off rk).getD i 0 < 2 ^ 32 := by
  intro fuel
  induction fuel with
  | zero => intro rcIdx off rk h; simpa [keyExpandLoop] using h
  | succ fuel ih =>
    intro rcIdx off rk h
    simp only [keyExpandLoop]
    have h1 := keyExpandIter_lt keylen rcIdx off rk h
    split_ifs with hc1 hc2 hc3
    · exact h1
    · apply ih
      have H1 := getD_set_lt1 _ (off + 10) _
        (xor_lt32 _ _ (h1 (off + 4)) (h1 (off + 9))) h1
      exact getD_set_lt1 _ (off + 11) _
        (xor_lt32 _ _ (H1 (off + 5)) (H1 (off + 10))) H1
    · apply ih
      have H1 := getD_set_lt1 _ (off + 12) _
        (val32_lt _ ((keyExpandIter keylen rcIdx off rk).getD (off + 11) 0)
          (h1 (off + 4))) h1
      have H2 := getD_set_lt1 _ (off + 13) _
        (xor_lt32 _ _ (H1 (off + 5)) (H1 (off + 12))) H1
      have H3 := getD_set_lt1 _ (off + 14) _
        (xor_lt32 _ _ (H2 (off + 6)) (H2 (off + 13))) H2
      exact getD_set_lt1 _ (off + 15) _
        (xor_lt32 _ _ (H3 (off + 7)) (H3 (off + 14))) H3
    · exact ih _ _ _ h1

theorem pack_be_lt (a b c d : Nat) (ha : a < 256) (hb : b < 256) (hc : c < 256)
    (hd : d < 256) : (a <<< 24) ||| (b <<< 16) ||| (c <<< 8) ||| d < 2 ^ 32 := by
  apply Nat.or_lt_two_pow
  apply Nat.or_lt_two_pow
  apply Nat.or_lt_two_pow
  · rw [Nat.shiftLeft_eq]; omega
  · rw [Nat.shiftLeft_eq]; omega
  · rw [Nat.shiftLeft_eq]; omega
  · omega

theorem getD_lt_of_mem {l : List Nat} {B : Nat} (h : ∀ w ∈ l, w < B) (hB : 0 < B)
    (i : Nat) : l.getD i 0 < B := by
  rw [List.getD_eq_getElem?_getD]
  cases hx : l[i]? with
  | none => simpa using hB
  | some v => exact h v (List.getElem?_mem hx)

theorem beWord_lt (k : List Nat) (hk : ∀ w ∈ k, w < 256) (i : Nat) :
    beWord k i < 2 ^ 32 := by
  simp only [beWord]
  exact pack_be_lt _ _ _ _ (getD_lt_of_mem hk (by norm_num) _)
    (getD_lt_of_mem hk (by norm_num) _) (getD_lt_of_mem hk (by norm_num) _)
    (getD_lt_of_mem hk (by norm_num) _)

theorem loadUserKey_lt (key : List Nat) (hk : ∀ w ∈ key, w < 256) :
    ∀ n rk, (∀ i, rk.getD i 0 < 2 ^ 32) →
      ∀ i, (loadUserKey key n rk).getD i 0 < 2 ^ 32 := by
  intro n
  induction n with
  | zero => intro rk h; simpa [loadUserKey] using h
  | succ n ih =>
    intro rk h
    simp only [loadUserKey]
    exact getD_set_lt1 _ _ _ (beWord_lt key hk n) (ih rk h)

theorem replicate_getD (n i : Nat) : (List.replicate n (0 : Nat)).getD i 0 = 0 := by
  rw [List.getD_eq_getElem?_getD, List.getElem?_replicate]
  split_ifs <;> rfl

theorem expandedKey_lt (key : List Nat) (hk : ∀ w ∈ key, w < 256) :
    ∀ i, (expandedKey key).getD i 0 < 2 ^ 32 := by
  simp only [expandedKey]
  apply keyExpandLoop_lt
  apply loadUserKey_lt key hk
  intro i
  rw [replicate_getD]
  norm_num

theorem loadUserKey_length (key : List Nat) :
    ∀ n rk, (loadUserKey key n rk).length = rk.length := by
  intro n
  induction n with
  | zero => intro rk; rfl
  | succ n ih => intro rk; simp [loadUserKey, List.length_set, ih]

theorem keyExpandIter_length (keylen rcIdx off : Nat) (rk : List Nat) :
    (keyExpandIter keylen rcIdx off rk).length = rk.length := by
  simp [keyExpandIter, List.length_set]

theorem keyExpandLoop_length (keylen : Nat) :
    ∀ fuel rcIdx off rk, (keyExpandLoop keylen fuel rcIdx off rk).length = rk.length := by
  intro fuel
  induction fuel with
  | zero => intro rcIdx off rk; rfl
  | succ fuel ih =>
    intro rcIdx off rk
    simp only [keyExpandLoop]
    split_ifs with hc1 hc2 hc3
    · exact keyExpandIter_length _ _ _ _
    · rw [ih]
      simp [List.length_set, keyExpandIter_length]
    · rw [ih]
      simp [List.length_set, keyExpandIter_length]
    · rw [ih]
      exact keyExpandIter_length _ _ _ _

theorem expandedKey_length (key : List Nat) :
    (expandedKey key).length = 4 * (key.length / 4 + 6 + 1) := by
  simp only [expandedKey]
  rw [keyExpandLoop_length, loadUserKey_length, List.length_replicate]

theorem byteReverse16_length (R : Nat) (rk : List Nat) :
    (byteReverse16 R rk).length = rk.length := by
  simp [byteReverse16, List.length_set]

theorem reverseRoundKeys_length (R : Nat) (rk : List Nat) :
    (reverseRoundKeys R rk).length = rk.length := by
  simp [reverseRoundKeys]

theorem invMixInterior_length (R : Nat) (rk : List Nat) :
    (invMixInterior R rk).length = rk.length := by
  simp [invMixInterior]

theorem invMix_lt (w : Nat) : invMixColumnWord w < 2 ^ 32 := by
  simp only [invMixColumnWord]
  exact xor_lt32 _ _ (xor_lt32 _ _ (xor_lt32 _ _ (TdAt_lt _) (TdAt_lt _)) (TdAt_lt _))
    (TdAt_lt _)

theorem set_bswap_lt (l : List Nat) (m : Nat) (h : ∀ i, l.getD i 0 < 2 ^ 32) :
    ∀ i, (l.set m (bswap32 (l.getD m 0))).getD i 0 < 2 ^ 32 :=
  getD_set_lt1 _ _ _ (bswap32_lt _) h

theorem byteReverse16_lt (R : Nat) (rk : List Nat) (h : ∀ i, rk.getD i 0 < 2 ^ 32) :
    ∀ i, (byteReverse16 R rk).getD i 0 < 2 ^ 32 := by
  simp only [byteReverse16]
  exact set_bswap_lt _ _ (set_bswap_lt _ _ (set_bswap_lt _ _ (set_bswap_lt _ _
    (set_bswap_lt _ _ (set_bswap_lt _ _ (set_bswap_lt _ _ (set_bswap_lt _ _ h)))))))

theorem reverseRoundKeys_getD (R : Nat) (rk : List Nat) (i : Nat) (h : i < rk.length)
    (hi : i ≤ 4 * R + 3) :
    (reverseRoundKeys R rk).getD i 0 = rk.getD (4 * (R - i / 4) + i % 4) 0 := by
  simp only [reverseRoundKeys]
  rw [rangeMap_getD _ _ _ h, if_pos hi]

theorem invMixInterior_getD (R : Nat) (rk : List Nat) (i : Nat) (h : i < rk.length) :
    (invMixInterior R rk).getD i 0 =
      if 4 ≤ i ∧ i < 4 * R then invMixColumnWord (rk.getD i 0) else rk.getD i 0 := by
  simp only [invMixInterior]
  rw [rangeMap_getD _ _ _ h]

theorem reverseRoundKeys_lt (R : Nat) (rk : List Nat) (h : ∀ i, rk.getD i 0 < 2 ^ 32) :
    ∀ i, (reverseRoundKeys R rk).getD i 0 < 2 ^ 32 := by
  intro i
  by_cases hl : i < rk.length
  · rw [List.getD_eq_getElem?_getD]
    simp only [reverseRoundKeys]
    rw [List.getElem?_map, List.getElem?_range (by simpa using hl)]
    simp only [Option.map_some, Option.map_some', Option.getD_some]
    split_ifs <;> exact h _
  · rw [List.getD_eq_getElem?_getD, List.getElem?_eq_none (by
      simp only [reverseRoundKeys, List.length_map, List.length_range]; omega)]
    norm_num

theorem invMixInterior_lt (R : Nat) (rk : List Nat) (h : ∀ i, rk.getD i 0 < 2 ^ 32) :
    ∀ i, (invMixInterior R rk).getD i 0 < 2 ^ 32 := by
  intro i
  by_cases hl : i < rk.length
  · rw [invMixInterior_getD R rk i hl]
    split_ifs
    · exact invMix_lt _
    · exact h i
  · rw [List.getD_eq_getElem?_getD, List.getElem?_eq_none (by
      simp only [invMixInterior, List.length_map, List.length_range]; omega)]
    norm_num

theorem getD_set_ne (l : List Nat) (m a i : Nat) (h : m ≠ i) :
    (l.set m a).getD i 0 = l.getD i 0 := by
  rw [getD_set, if_neg]
  intro hc
  exact h hc.1

theorem getD_set_eq (l : List Nat) (m a : Nat) (h : m < l.length) :
    (l.set m a).getD m 0 = a := by
  rw [getD_set, if_pos ⟨rfl, h⟩]

theorem byteReverse16_getD (R : Nat) (rk : List Nat) (hR : 1 ≤ R)
    (hlen : rk.length = 4 * (R + 1)) (i : Nat) :
    (byteReverse16 R rk).getD i 0 =
      if i < 4 ∨ (4 * R ≤ i ∧ i < 4 * R + 4) then bswap32 (rk.getD i 0)
      else rk.getD i 0 := by
  simp only [byteReverse16]
  by_cases h0 : i = 0
  · subst h0
    rw [getD_set_ne _ _ _ _ (by omega), getD_set_ne _ _ _ _ (by omega), getD_set_ne _ _ _ _ (by omega), getD_set_ne _ _ _ _ (by omega), getD_set_ne _ _ _ _ (by omega), getD_set_ne _ _ _ _ (by omega), getD_set_ne _ _ _ _ (by omega), getD_set_eq _ _ _ (by simp only [List.length_set, hlen]; omega)]
    rw [if_pos (by omega)]
  by_cases h1 : i = 1
  · subst h1
    rw [getD_set_ne _ _ _ _ (by omega), getD_set_ne _ _ _ _ (by omega), getD_set_ne _ _ _ _ (by omega), getD_set_ne _ _ _ _ (by omega), getD_set_ne _ _ _ _ (by omega), getD_set_ne _ _ _ _ (by omega), getD_set_eq _ _ _ (by simp only [List.length_set, hlen]; omega), getD_set_ne _ _ _ _ (by omega)]
    rw [if_pos (by omega)]
  by_cases h2 : i = 2
  · subst h2
    rw [getD_set_ne _ _ _ _ (by omega), getD_set_ne _ _ _ _ (by omega), getD_set_ne _ _ _ _ (by omega), getD_set_ne _ _ _ _ (by omega), getD_set_ne _ _ _ _ (by omega), getD_set_eq _ _ _ (by simp only [List.length_set, hlen]; omega), getD_set_ne _ _ _ _ (by omega), getD_set_ne _ _ _ _ (by omega)]
    rw [if_pos (by omega)]
  by_cases h3 : i = 3
  · subst h3
    rw [getD_set_ne _ _ _ _ (by omega), getD_set_ne _ _ _ _ (by omega), getD_set_ne _ _ _ _ (by omega), getD_set_ne _ _ _ _ (by omega), getD_set_eq _ _ _ (by simp only [List.length_set, hlen]; omega), getD_set_ne _ _ _ _ (by omega), getD_set_ne _ _ _ _ (by omega), getD_set_ne _ _ _ _ (by omega)]
    rw [if_pos (by omega)]
  by_cases hh0 : i = 4 * R
  · subst hh0
    rw [getD_set_ne _ _ _ _ (by omega), getD_set_ne _ _ _ _ (by omega), getD_set_ne _ _ _ _ (by omega), getD_set_eq _ _ _ (by simp only [List.length_set, hlen]; omega), getD_set_ne _ _ _ _ (by omega), getD_set_ne _ _ _ _ (by omega), getD_set_ne _ _ _ _ (by omega), getD_set_ne _ _ _ _ (by omega)]
    rw [if_pos (by omega)]
  by_cases hh1 : i = 4 * R + 1
  · subst hh1
    rw [getD_set_ne _ _ _ _ (by omega), getD_set_ne _ _ _ _ (by omega), getD_set_eq _ _ _ (by simp only [List.length_set, hlen]; omega), getD_set_ne _ _ _ _ (by omega), getD_set_ne _ _ _ _ (by omega), getD_set_ne _ _ _ _ (by omega), getD_set_ne _ _ _ _ (by omega), getD_set_ne _ _ _ _ (by omega)]
    rw [if_pos (by omega)]
  by_cases hh2 : i = 4 * R + 2
  · subst hh2
    rw [getD_set_ne _ _ _ _ (by omega), getD_set_eq _ _ _ (by simp only [List.length_set, hlen]; omega), getD_set_ne _ _ _ _ (by omega), getD_set_ne _ _ _ _ (by omega), getD_set_ne _ _ _ _ (by omega), getD_set_ne _ _ _ _ (by omega), getD_set_ne _ _ _ _ (by omega), getD_set_ne _ _ _ _ (by omega)]
    rw [if_pos (by omega)]
  by_cases hh3 : i = 4 * R + 3
  · subst hh3
    rw [getD_set_eq _ _ _ (by simp only [List.length_set, hlen]; omega), getD_set_ne _ _ _ _ (by omega), getD_set_ne _ _ _ _ (by omega), getD_set_ne _ _ _ _ (by omega), getD_set_ne _ _ _ _ (by omega), getD_set_ne _ _ _ _ (by omega), getD_set_ne _ _ _ _ (by omega), getD_set_ne _ _ _ _ (by omega)]
    rw [if_pos (by omega)]
  · rw [getD_set_ne _ _ _ _ (by omega), getD_set_ne _ _ _ _ (by omega), getD_set_ne _ _ _ _ (by omega), getD_set_ne _ _ _ _ (by omega), getD_set_ne _ _ _ _ (by omega), getD_set_ne _ _ _ _ (by omega), getD_set_ne _ _ _ _ (by omega), getD_set_ne _ _ _ _ (by omega)]
    rw [if_neg (by omega)]

theorem EncProcessBlock_eq (mkey : List Nat) (rounds : Nat) (blk : List Nat) :
    Rijndael.EncProcessBlock mkey rounds blk =
      encLastT mkey (4 * rounds)
        (encLoop mkey (rounds / 2 - 1) 8
          (encFirstRound (mkey.getD 4 0) (mkey.getD 5 0) (mkey.getD 6 0) (mkey.getD 7 0)
            (leWord blk 0 ^^^ mkey.getD 0 0 ||| 0) (leWord blk 1 ^^^ mkey.getD 1 0 ||| 0)
            (leWord blk 2 ^^^ mkey.getD 2 0 ||| 0)
            (leWord blk 3 ^^^ mkey.getD 3 0 ||| 0))) := rfl

theorem DecProcessBlock_eq (mkey : List Nat) (rounds : Nat) (blk : List Nat) :
    Rijndael.DecProcessBlock mkey rounds blk =
      decLastT mkey (4 * rounds)
        (decLoop mkey (rounds / 2 - 1) 8
          (decFirstRound (mkey.getD 4 0) (mkey.getD 5 0) (mkey.getD 6 0) (mkey.getD 7 0)
            (leWord blk 0 ^^^ mkey.getD 0 0 ||| 0) (leWord blk 1 ^^^ mkey.getD 1 0 ||| 0)
            (leWord blk 2 ^^^ mkey.getD 2 0 ||| 0)
            (leWord blk 3 ^^^ mkey.getD 3 0 ||| 0))) := rfl

theorem encRound_as_encRounds (rk : List Nat) (x0 x1 x2 x3 : Nat) :
    encRound (rk.getD 4 0) (rk.getD 5 0) (rk.getD 6 0) (rk.getD 7 0) x0 x1 x2 x3 =
      encRounds rk 1 4 (x0, x1, x2, x3) := rfl

theorem decRound_as_decRounds (rk : List Nat) (x0 x1 x2 x3 : Nat) :
    decRound (rk.getD 4 0) (rk.getD 5 0) (rk.getD 6 0) (rk.getD 7 0) x0 x1 x2 x3 =
      decRounds rk 1 4 (x0, x1, x2, x3) := rfl

theorem encLastW_mem_lt (K0 K1 K2 K3 t0 t1 t2 t3 : Nat) :
    ∀ w ∈ encLastW K0 K1 K2 K3 t0 t1 t2 t3, w < 256 := by
  intro w hw
  simp only [encLastW, List.mem_cons, List.not_mem_nil, or_false] at hw
  rcases hw with rfl | rfl | rfl | rfl | rfl | rfl | rfl | rfl | rfl | rfl | rfl | rfl |
    rfl | rfl | rfl | rfl <;> exact getByte_lt _ _

theorem leWord_lt (l : List Nat) (h : ∀ w ∈ l, w < 256) (j : Nat) :
    leWord l j < 2 ^ 32 := by
  simp only [leWord]
  exact pack_lt _ _ _ _ (getD_lt_of_mem h (by norm_num) _) (getD_lt_of_mem h (by norm_num) _)
    (getD_lt_of_mem h (by norm_num) _) (getD_lt_of_mem h (by norm_num) _)

theorem aesRoundtrip_core (key : List Nat) (R : Nat) (hR10 : 10 ≤ R) (hRe : R % 2 = 0)
    (hRdef : R = key.length / 4 + 6) (hk : ∀ w ∈ key, w < 256)
    (p0 p1 p2 p3 p4 p5 p6 p7 p8 p9 p10 p11 p12 p13 p14 p15 : Nat)
    (hp0 : p0 < 256) (hp1 : p1 < 256) (hp2 : p2 < 256) (hp3 : p3 < 256)
    (hp4 : p4 < 256) (hp5 : p5 < 256) (hp6 : p6 < 256) (hp7 : p7 < 256)
    (hp8 : p8 < 256) (hp9 : p9 < 256) (hp10 : p10 < 256) (hp11 : p11 < 256)
    (hp12 : p12 < 256) (hp13 : p13 < 256) (hp14 : p14 < 256) (hp15 : p15 < 256) :
    Rijndael.DecProcessBlock (Rijndael.UncheckedSetKeyDec key) R
      (Rijndael.EncProcessBlock (Rijndael.UncheckedSetKeyEnc key) R
        [p0, p1, p2, p3, p4, p5, p6, p7, p8, p9, p10, p11, p12, p13, p14, p15]) =
      [p0, p1, p2, p3, p4, p5, p6, p7, p8, p9, p10, p11, p12, p13, p14, p15] := by
  have hR1 : 1 ≤ R := by omega
  have hmEdef : Rijndael.UncheckedSetKeyEnc key = byteReverse16 R (expandedKey key) := by
    simp only [Rijndael.UncheckedSetKeyEnc, ← hRdef]
  have hmDdef : Rijndael.UncheckedSetKeyDec key =
      byteReverse16 R (invMixInterior R (reverseRoundKeys R (expandedKey key))) := by
    simp only [Rijndael.UncheckedSetKeyDec, ← hRdef]
  rw [hmEdef, hmDdef]
  set ek := expandedKey key with hekdef
  have hlen : ek.length = 4 * (R + 1) := by
    rw [hekdef, expandedKey_length]
    omega
  have hekb : ∀ i, ek.getD i 0 < 2 ^ 32 := by
    rw [hekdef]
    exact expandedKey_lt key hk
  set mE := byteReverse16 R ek with hmE
  set rr := reverseRoundKeys R ek with hrr
  set ii := invMixInterior R rr with hii
  set mD := byteReverse16 R ii with hmD
  have hmEb : ∀ i, mE.getD i 0 < 2 ^ 32 := byteReverse16_lt R ek hekb
  have hrrlen : rr.length = 4 * (R + 1) := by rw [hrr, reverseRoundKeys_length, hlen]
  have hiilen : ii.length = 4 * (R + 1) := by rw [hii, invMixInterior_length, hrrlen]
  have mEg := byteReverse16_getD R ek hR1 hlen
  have mDg := byteReverse16_getD R ii hR1 hiilen
  have mE0 : mE.getD 0 0 = bswap32 (ek.getD 0 0) := by
    rw [← hmE] at mEg
    rw [mEg 0, if_pos (Or.inl (by omega))]
  have mE1 : mE.getD 1 0 = bswap32 (ek.getD 1 0) := by
    rw [← hmE] at mEg
    rw [mEg 1, if_pos (Or.inl (by omega))]
  have mE2 : mE.getD 2 0 = bswap32 (ek.getD 2 0) := by
    rw [← hmE] at mEg
    rw [mEg 2, if_pos (Or.inl (by omega))]
  have mE3 : mE.getD 3 0 = bswap32 (ek.getD 3 0) := by
    rw [← hmE] at mEg
    rw [mEg 3, if_pos (Or.inl (by omega))]
  have mEtop0 : mE.getD (4 * R) 0 = bswap32 (ek.getD (4 * R) 0) := by
    rw [mEg (4 * R), if_pos (Or.inr ⟨by omega, by omega⟩)]
  have mEtop1 : mE.getD (4 * R + 1) 0 = bswap32 (ek.getD (4 * R + 1) 0) := by
    rw [mEg (4 * R + 1), if_pos (Or.inr ⟨by omega, by omega⟩)]
  have mEtop2 : mE.getD (4 * R + 2) 0 = bswap32 (ek.getD (4 * R + 2) 0) := by
    rw [mEg (4 * R + 2), if_pos (Or.inr ⟨by omega, by omega⟩)]
  have mEtop3 : mE.getD (4 * R + 3) 0 = bswap32 (ek.getD (4 * R + 3) 0) := by
    rw [mEg (4 * R + 3), if_pos (Or.inr ⟨by omega, by omega⟩)]
  have mDlow : ∀ j, j < 4 → mD.getD j 0 = bswap32 (ek.getD (4 * R + j) 0) := by
    intro j hj
    rw [mDg j, if_pos (Or.inl hj), hii, invMixInterior_getD R rr j (by omega),
      if_neg (by omega), hrr, reverseRoundKeys_getD R ek j (by omega) (by omega)]
    have hidx : 4 * (R - j / 4) + j % 4 = 4 * R + j := by omega
    rw [hidx]
  have mDtop : ∀ j, j < 4 → mD.getD (4 * R + j) 0 = bswap32 (ek.getD j 0) := by
    intro j hj
    rw [mDg _, if_pos (Or.inr ⟨by omega, by omega⟩), hii,
      invMixInterior_getD R rr _ (by omega), if_neg (by omega), hrr,
      reverseRoundKeys_getD R ek _ (by omega) (by omega)]
    have hidx : 4 * (R - (4 * R + j) / 4) + (4 * R + j) % 4 = j := by omega
    rw [hidx]
  have hkeyD : ∀ i, 4 ≤ i → i < 4 * R →
      mD.getD i 0 = invMixColumnWord (mE.getD (4 * (R - i / 4) + i % 4) 0) := by
    intro i h4 hlt
    rw [mDg i, if_neg (by omega), hii, invMixInterior_getD R rr i (by omega),
      if_pos ⟨h4, hlt⟩, hrr, reverseRoundKeys_getD R ek i (by omega) (by omega)]
    rw [mEg _, if_neg (by omega)]
  rw [EncProcessBlock_eq, DecProcessBlock_eq]
  simp only [Nat.or_zero]
  rw [leWord_list16_0, leWord_list16_1, leWord_list16_2, leWord_list16_3,
    mE0, mE1, mE2, mE3]
  have hs0 : (p0 ||| (p1 <<< 8) ||| (p2 <<< 16) ||| (p3 <<< 24)) ^^^
      bswap32 (ek.getD 0 0) < 2 ^ 32 :=
    xor_lt32 _ _ (pack_lt _ _ _ _ hp0 hp1 hp2 hp3) (bswap32_lt _)
  have hs1 : (p4 ||| (p5 <<< 8) ||| (p6 <<< 16) ||| (p7 <<< 24)) ^^^
      bswap32 (ek.getD 1 0) < 2 ^ 32 :=
    xor_lt32 _ _ (pack_lt _ _ _ _ hp4 hp5 hp6 hp7) (bswap32_lt _)
  have hs2 : (p8 ||| (p9 <<< 8) ||| (p10 <<< 16) ||| (p11 <<< 24)) ^^^
      bswap32 (ek.getD 2 0) < 2 ^ 32 :=
    xor_lt32 _ _ (pack_lt _ _ _ _ hp8 hp9 hp10 hp11) (bswap32_lt _)
  have hs3 : (p12 ||| (p13 <<< 8) ||| (p14 <<< 16) ||| (p15 <<< 24)) ^^^
      bswap32 (ek.getD 3 0) < 2 ^ 32 :=
    xor_lt32 _ _ (pack_lt _ _ _ _ hp12 hp13 hp14 hp15) (bswap32_lt _)
  rw [encFirstRound_eq _ _ _ _ _ _ _ _ hs0 hs1 hs2 hs3, encRound_as_encRounds,
    encLoop_eq]
  rw [show 2 * (R / 2 - 1) = R - 2 from by omega]
  have h8 : (4 + 4 * 1 : Nat) = 8 := rfl
  have hadd := encRounds_add mE 1 (R - 2) 4
    ((bswap32 ((p0 ||| (p1 <<< 8) ||| (p2 <<< 16) ||| (p3 <<< 24)) ^^^ bswap32 (ek.getD 0 0)),
      bswap32 ((p4 ||| (p5 <<< 8) ||| (p6 <<< 16) ||| (p7 <<< 24)) ^^^ bswap32 (ek.getD 1 0)),
      bswap32 ((p8 ||| (p9 <<< 8) ||| (p10 <<< 16) ||| (p11 <<< 24)) ^^^ bswap32 (ek.getD 2 0)),
      bswap32 ((p12 ||| (p13 <<< 8) ||| (p14 <<< 16) ||| (p15 <<< 24)) ^^^ bswap32 (ek.getD 3 0))))
  rw [h8] at hadd
  rw [hadd, show 1 + (R - 2) = R - 1 from by omega]
  rcases hT : encRounds mE (R - 1) 4
    ((bswap32 ((p0 ||| (p1 <<< 8) ||| (p2 <<< 16) ||| (p3 <<< 24)) ^^^ bswap32 (ek.getD 0 0)),
      bswap32 ((p4 ||| (p5 <<< 8) ||| (p6 <<< 16) ||| (p7 <<< 24)) ^^^ bswap32 (ek.getD 1 0)),
      bswap32 ((p8 ||| (p9 <<< 8) ||| (p10 <<< 16) ||| (p11 <<< 24)) ^^^ bswap32 (ek.getD 2 0)),
      bswap32 ((p12 ||| (p13 <<< 8) ||| (p14 <<< 16) ||| (p15 <<< 24)) ^^^ bswap32 (ek.getD 3 0))))
    with ⟨T0, T1, T2, T3⟩
  have hTlt : lt4 (T0, T1, T2, T3) := by
    rw [← hT]
    exact encRounds_lt mE hmEb _ _ _
      ⟨bswap32_lt _, bswap32_lt _, bswap32_lt _, bswap32_lt _⟩
  obtain ⟨hT0, hT1, hT2, hT3⟩ := hTlt
  simp only [encLastT]
  rw [encLast_eq_W, mEtop0, mEtop1, mEtop2, mEtop3]
  have hcm := encLastW_mem_lt (bswap32 (ek.getD (4 * R) 0)) (bswap32 (ek.getD (4 * R + 1) 0))
    (bswap32 (ek.getD (4 * R + 2) 0)) (bswap32 (ek.getD (4 * R + 3) 0)) T0 T1 T2 T3
  have hsd0 := xor_lt32 _ _ (leWord_lt _ hcm 0) (bswap32_lt (ek.getD (4 * R) 0))
  have hsd1 := xor_lt32 _ _ (leWord_lt _ hcm 1) (bswap32_lt (ek.getD (4 * R + 1) 0))
  have hsd2 := xor_lt32 _ _ (leWord_lt _ hcm 2) (bswap32_lt (ek.getD (4 * R + 2) 0))
  have hsd3 := xor_lt32 _ _ (leWord_lt _ hcm 3) (bswap32_lt (ek.getD (4 * R + 3) 0))
  have mDlow0 : mD.getD 0 0 = bswap32 (ek.getD (4 * R) 0) := mDlow 0 (by omega)
  rw [mDlow0, mDlow 1 (by omega), mDlow 2 (by omega), mDlow 3 (by omega)]
  rw [decFirstRound_eq _ _ _ _ _ _ _ _ hsd0 hsd1 hsd2 hsd3]
  rw [endA_0 _ _ _ _ _ _ _ _ hT0, endA_1 _ _ _ _ _ _ _ _ hT1,
    endA_2 _ _ _ _ _ _ _ _ hT2, endA_3 _ _ _ _ _ _ _ _ hT3]
  rw [decRound_as_decRounds, decLoop_eq]
  rw [show 2 * (R / 2 - 1) = R - 2 from by omega]
  have hadd2 := decRounds_add mD 1 (R - 2) 4
    (midW T3 T2 T1 T0, midW T0 T3 T2 T1, midW T1 T0 T3 T2, midW T2 T1 T0 T3)
  rw [h8] at hadd2
  rw [hadd2, show 1 + (R - 2) = R - 1 from by omega]
  have hM4 : (midW T3 T2 T1 T0, midW T0 T3 T2 T1, midW T1 T0 T3 T2, midW T2 T1 T0 T3) =
      M4 (T0, T1, T2, T3) := rfl
  rw [hM4, ← hT]
  have hmain := decRounds_inverts mE mD R hkeyD hmEb (R - 1) 1
    ((bswap32 ((p0 ||| (p1 <<< 8) ||| (p2 <<< 16) ||| (p3 <<< 24)) ^^^ bswap32 (ek.getD 0 0)),
      bswap32 ((p4 ||| (p5 <<< 8) ||| (p6 <<< 16) ||| (p7 <<< 24)) ^^^ bswap32 (ek.getD 1 0)),
      bswap32 ((p8 ||| (p9 <<< 8) ||| (p10 <<< 16) ||| (p11 <<< 24)) ^^^ bswap32 (ek.getD 2 0)),
      bswap32 ((p12 ||| (p13 <<< 8) ||| (p14 <<< 16) ||| (p15 <<< 24)) ^^^ bswap32 (ek.getD 3 0))))
    (by omega) (by omega)
    ⟨bswap32_lt _, bswap32_lt _, bswap32_lt _, bswap32_lt _⟩
  rw [show 4 * (R - (1 + (R - 1)) + 1) = 4 from by omega] at hmain
  rw [hmain]
  simp only [M4, decLastT]
  have mDtop0 : mD.getD (4 * R) 0 = bswap32 (ek.getD 0 0) := mDtop 0 (by omega)
  rw [decLast_eq_W, mDtop0, mDtop 1 (by omega), mDtop 2 (by omega), mDtop 3 (by omega)]
  exact endB (ek.getD 0 0) (ek.getD 1 0) (ek.getD 2 0) (ek.getD 3 0)
    p0 p1 p2 p3 p4 p5 p6 p7 p8 p9 p10 p11 p12 p13 p14 p15
    hp0 hp1 hp2 hp3 hp4 hp5 hp6 hp7 hp8 hp9 hp10 hp11 hp12 hp13 hp14 hp15

/-- C2: for every key of length 16, 24 or 32 bytes and every 16-byte block,
decrypting (with the decrypt-direction key schedule) the result of encrypting
the block (with the encrypt-direction key schedule) through
process_and_xor_block with no xor input yields the block again. -/
theorem aes_enc_dec_roundtrip (key p : List Nat)
    (hklen : key.length = 16 ∨ key.length = 24 ∨ key.length = 32)
    (hk : ∀ b ∈ key, b < 256) (hplen : p.length = 16) (hp : ∀ b ∈ p, b < 256) :
    aesDecrypt key (aesEncrypt key p) = p := by
  rcases p with _ | ⟨b0, p⟩
  · simp at hplen
  rcases p with _ | ⟨b1, p⟩
  · simp at hplen
  rcases p with _ | ⟨b2, p⟩
  · simp at hplen
  rcases p with _ | ⟨b3, p⟩
  · simp at hplen
  rcases p with _ | ⟨b4, p⟩
  · simp at hplen
  rcases p with _ | ⟨b5, p⟩
  · simp at hplen
  rcases p with _ | ⟨b6, p⟩
  · simp at hplen
  rcases p with _ | ⟨b7, p⟩
  · simp at hplen
  rcases p with _ | ⟨b8, p⟩
  · simp at hplen
  rcases p with _ | ⟨b9, p⟩
  · simp at hplen
  rcases p with _ | ⟨b10, p⟩
  · simp at hplen
  rcases p with _ | ⟨b11, p⟩
  · simp at hplen
  rcases p with _ | ⟨b12, p⟩
  · simp at hplen
  rcases p with _ | ⟨b13, p⟩
  · simp at hplen
  rcases p with _ | ⟨b14, p⟩
  · simp at hplen
  rcases p with _ | ⟨b15, p⟩
  · simp at hplen
  rcases p with _ | ⟨b16, p⟩
  swap
  · simp at hplen
  simp only [List.mem_cons, List.not_mem_nil, or_false, forall_eq_or_imp, forall_eq] at hp
  obtain ⟨h0, h1, h2, h3, h4, h5, h6, h7, h8, h9, h10, h11, h12, h13, h14, h15⟩ := hp
  simp only [aesEncrypt, aesDecrypt]
  rcases hklen with h | h | h <;>
    exact aesRoundtrip_core key (key.length / 4 + 6) (by omega) (by omega) rfl hk
      b0 b1 b2 b3 b4 b5 b6 b7 b8 b9 b10 b11 b12 b13 b14 b15
      h0 h1 h2 h3 h4 h5 h6 h7 h8 h9 h10 h11 h12 h13 h14 h15

/-- Witness for C2 at the AES-128 NIST key and plaintext. -/
theorem aes_enc_dec_roundtrip_witness :
    aesDecrypt
      [0x2b, 0x7e, 0x15, 0x16, 0x28, 0xae, 0xd2, 0xa6,
       0xab, 0xf7, 0x15, 0x88, 0x09, 0xcf, 0x4f, 0x3c]
      (aesEncrypt
        [0x2b, 0x7e, 0x15, 0x16, 0x28, 0xae, 0xd2, 0xa6,
         0xab, 0xf7, 0x15, 0x88, 0x09, 0xcf, 0x4f, 0x3c]
        [0x6b, 0xc1, 0xbe, 0xe2, 0x2e, 0x40, 0x9f, 0x96,
         0xe9, 0x3d, 0x7e, 0x11, 0x73, 0x93, 0x17, 0x2a]) =
      [0x6b, 0xc1, 0xbe, 0xe2, 0x2e, 0x40, 0x9f, 0x96,
       0xe9, 0x3d, 0x7e, 0x11, 0x73, 0x93, 0x17, 0x2a] :=
  aes_enc_dec_roundtrip _ _ (Or.inl rfl) (by decide) rfl (by decide)
